import Mathlib

/-!
Verification of the conversation-state machine and response-parsing layer of the
ai-video-script-generator repository.

The Python source is shallowly embedded over `List Char` (Python `str`).  Python's
string operations (`strip`, `lower`, `replace`, `split`, slicing) are modelled by
executable Lean functions, and each regular expression used by the source is modelled
by a specialized executable matcher implementing leftmost-match semantics of that
concrete pattern.  Python `float` arithmetic in `calculate_act_duration` is modelled
by exact rationals; the concrete inputs evaluated in the theorems below produce the
same rendered strings under IEEE doubles and under ℚ.  Python dictionaries with a
known key set are modelled by structures with `Option` fields (a missing key is
`none`); truthiness of a string is non-emptiness.
-/

set_option maxRecDepth 20000

/-- Characters of a string literal, the embedding of a Python `str` constant. -/
def S (s : String) : List Char := s.data

/-- Python `str.strip` whitespace class (ASCII part, which covers all inputs used). -/
def isSpaceB (c : Char) : Bool :=
  c == ' ' || c == '\t' || c == '\n' || c == '\r' || c == Char.ofNat 11 || c == Char.ofNat 12

/-- ASCII lower-casing of one character, as done by `str.lower` on ASCII text. -/
def pyToLower (c : Char) : Char :=
  if 'A' ≤ c ∧ c ≤ 'Z' then Char.ofNat (c.toNat + 32) else c

/-- Python `str.lower` (character-wise). -/
def pyLower (l : List Char) : List Char := l.map pyToLower

/-- Drop leading whitespace, the first half of Python `str.strip`. -/
def stripLead (l : List Char) : List Char := l.dropWhile isSpaceB

/-- Drop trailing whitespace, the second half of Python `str.strip`. -/
def stripTrail (l : List Char) : List Char := (l.reverse.dropWhile isSpaceB).reverse

/-- Python `str.strip()`. -/
def pyStrip (l : List Char) : List Char := stripTrail (stripLead l)

/-- Boolean string-prefix test, Python `str.startswith`. -/
def startsW : List Char → List Char → Bool
  | [], _ => true
  | _ :: _, [] => false
  | c :: p, d :: l => c == d && startsW p l

/-- Boolean substring test, Python `pat in s`. -/
def hasSub (pat : List Char) : List Char → Bool
  | [] => startsW pat []
  | c :: rest => startsW pat (c :: rest) || hasSub pat rest

/-- Boolean string-suffix test, Python `str.endswith`. -/
def endsW (pat l : List Char) : Bool := startsW pat.reverse l.reverse

/-- Python `str.replace pat rep` (replace every non-overlapping occurrence, left to
right), with explicit fuel for structural termination. -/
def pyReplaceAux (pat rep : List Char) : Nat → List Char → List Char
  | 0, l => l
  | _ + 1, [] => []
  | fuel + 1, c :: rest =>
    if startsW pat (c :: rest) && pat.length ≠ 0 then
      rep ++ pyReplaceAux pat rep fuel ((c :: rest).drop pat.length)
    else
      c :: pyReplaceAux pat rep fuel rest

/-- Python `str.replace` for a non-empty pattern. -/
def pyReplace (l pat rep : List Char) : List Char := pyReplaceAux pat rep l.length l

/-- Python `str.split (chr 10)`: split on newline, keeping empty pieces. -/
def splitLines : List Char → List (List Char)
  | [] => [[]]
  | c :: rest =>
    if c == '\n' then [] :: splitLines rest
    else
      match splitLines rest with
      | [] => [[c]]
      | p :: ps => (c :: p) :: ps

/-- Digit test for the regex class `\d` on ASCII text. -/
def isDigitB (c : Char) : Bool := '0' ≤ c && c ≤ '9'

/-- Numeric value of a digit string. -/
def digitsVal (l : List Char) : Nat := l.foldl (fun a c => a * 10 + (c.toNat - 48)) 0

/-- Decimal digit character. -/
def digitChar (n : Nat) : Char := Char.ofNat (48 + n)

/-- Decimal rendering of a natural number (fuelled). -/
def natDigitsGo : Nat → Nat → List Char → List Char
  | 0, _, acc => acc
  | fuel + 1, m, acc =>
    if m < 10 then digitChar m :: acc
    else natDigitsGo fuel (m / 10) (digitChar (m % 10) :: acc)

/-- Decimal rendering of a natural number. -/
def natDigits (n : Nat) : List Char := natDigitsGo (n + 1) n []

/-- Exact rational value `num / den`; every `Frac` built below has a positive
denominator.  This is the model of Python float arithmetic in
`calculate_act_duration` (exact rationals in place of IEEE doubles; the inputs
evaluated in the theorems below render identically under both). -/
structure Frac where
  num : ℤ
  den : ℤ
deriving DecidableEq, Repr

/-- Rational value of a `Frac`, for value-level statements. -/
def Frac.toRat (a : Frac) : ℚ := (a.num : ℚ) / (a.den : ℚ)

/-- Product of two fractions. -/
def Frac.mul (a b : Frac) : Frac := ⟨a.num * b.num, a.den * b.den⟩

/-- Strict comparison of fractions (exact for positive denominators). -/
def Frac.blt (a b : Frac) : Bool := a.num * b.den < b.num * a.den

/-- Python `int(x)`: truncation toward zero (exact for a positive denominator). -/
def pyInt (a : Frac) : ℤ := a.num.tdiv a.den

/-- Round `n / d` (with `0 < d`) to the nearest integer, ties to even: the rounding
used by `format(x, ".1f")`. -/
def roundHalfEven (n d : ℤ) : ℤ :=
  let f : ℤ := n.ediv d
  let rnum : ℤ := n - f * d
  if 2 * rnum < d then f
  else if d < 2 * rnum then f + 1
  else if f % 2 = 0 then f else f + 1

/-- Python `f"{q:.1f}"` for a non-negative value with positive denominator. -/
def formatFixed1 (q : Frac) : List Char :=
  let n10 : ℤ := roundHalfEven (q.num * 10) q.den
  natDigits (n10.ediv 10).toNat ++ '.' :: [digitChar ((n10.emod 10).toNat)]

/-! ### calculate_act_duration (src/src/agents/story_architect_enhanced.py 13-37) -/

/-- Leading maximal digit run. -/
def takeDigits (l : List Char) : List Char := l.takeWhile isDigitB

/-- Attempt of the regex `(\d+)(?:-(\d+))?` anchored at the head of `l`: a maximal
digit run, optionally followed by a dash and a second maximal digit run. -/
def numPairAt (l : List Char) : Option (Nat × Nat) :=
  match l with
  | [] => none
  | c :: _ =>
    if isDigitB c then
      let d1 := takeDigits l
      let one := digitsVal d1
      match l.drop d1.length with
      | '-' :: r2 =>
        match r2 with
        | c2 :: _ =>
          if isDigitB c2 then some (one, digitsVal (takeDigits r2)) else some (one, one)
        | [] => some (one, one)
      | _ => some (one, one)
    else none

/-- Leftmost match of the regex `(\d+)(?:-(\d+))?` (the `re.search` in
`calculate_act_duration`): the groups of the first position where it matches. -/
def findNumPair : List Char → Option (Nat × Nat)
  | [] => none
  | c :: rest =>
    match numPairAt (c :: rest) with
    | some p => some p
    | none => findNumPair rest

/-- Embedding of the dictionary `proportions = {1: 0.2, 2: 0.6, 3: 0.2}` read with
`proportions.get(act_num, 0.33)`. -/
def actProportion (act_num : ℤ) : Frac :=
  if act_num = 1 then ⟨1, 5⟩
  else if act_num = 2 then ⟨3, 5⟩
  else if act_num = 3 then ⟨1, 5⟩
  else ⟨33, 100⟩

/-- The numeric act duration `avg_val * proportions.get(act_num, 0.33)` computed by
`calculate_act_duration`, exposed separately for value-level statements; `none` when
the duration string contains no number. -/
def actDurationVal (total_duration : List Char) (act_num : ℤ) : Option Frac :=
  match findNumPair total_duration with
  | none => none
  | some (minV, maxV) => some (Frac.mul ⟨(minV : ℤ) + (maxV : ℤ), 2⟩ (actProportion act_num))

/-- Embedding of `EnhancedStoryArchitect.calculate_act_duration`. -/
def calculateActDuration (total_duration : List Char) (act_num : ℤ) : List Char :=
  match findNumPair total_duration with
  | none => S "a few seconds"
  | some (minV, maxV) =>
    let avg : Frac := ⟨(minV : ℤ) + (maxV : ℤ), 2⟩
    let is_seconds : Bool := hasSub (S "second") total_duration
    let act_duration : Frac := Frac.mul avg (actProportion act_num)
    if is_seconds then natDigits (pyInt act_duration).toNat ++ S " seconds"
    else if Frac.blt act_duration ⟨1, 1⟩ then
      natDigits (pyInt (Frac.mul act_duration ⟨60, 1⟩)).toNat ++ S " seconds"
    else formatFixed1 act_duration ++ S " minutes"

/-- Whether `avg_val = (min_val + max_val) / 2` raises `OverflowError` in CPython:
true division of ints produces the correctly rounded IEEE double and raises when
that rounding reaches `2^1024` (the largest finite double is `2^1024 - 2^971`);
with round-half-to-even the quotient overflows exactly when it is at least
`2^1024 - 2^970`, that is when `min_val + max_val ≥ 2^1025 - 2^971`. -/
def avgOverflows (minV maxV : Nat) : Bool :=
  decide (2 ^ 1025 - 2 ^ 971 ≤ minV + maxV)

/-- Exception-aware embedding of `EnhancedStoryArchitect.calculate_act_duration`:
`none` models the `OverflowError` escaping from `(min_val + max_val) / 2`
(the only raising operation in the function: the digit-free branch returns before
any arithmetic, and the later float multiplications and formats cannot raise once
`avg_val` is a finite double). On every non-raising path it returns `some` of the
string computed by `calculateActDuration`. -/
def calculateActDurationChecked (total_duration : List Char) (act_num : ℤ) :
    Option (List Char) :=
  match findNumPair total_duration with
  | none => some (S "a few seconds")
  | some (minV, maxV) =>
    if avgOverflows minV maxV then none
    else
      some
        (let avg : Frac := ⟨(minV : ℤ) + (maxV : ℤ), 2⟩
         let is_seconds : Bool := hasSub (S "second") total_duration
         let act_duration : Frac := Frac.mul avg (actProportion act_num)
         if is_seconds then natDigits (pyInt act_duration).toNat ++ S " seconds"
         else if Frac.blt act_duration ⟨1, 1⟩ then
           natDigits (pyInt (Frac.mul act_duration ⟨60, 1⟩)).toNat ++ S " seconds"
         else formatFixed1 act_duration ++ S " minutes")

/-! ### _parse_option_selection (src/main.py 568-625) -/

/-- The digit value of a character (for a matched `(\d)` group). -/
def digitVal (c : Char) : Nat := c.toNat - 48

/-- Attempt, at the head of `l`, of a regex of shape `lit(\d)`: the literal followed
by one digit, returning the digit group. -/
def litDigitAt (lit l : List Char) : Option Nat :=
  if startsW lit l then
    match l.drop lit.length with
    | d :: _ => if isDigitB d then some (digitVal d) else none
    | [] => none
  else none

/-- Leftmost `re.search` of a regex of shape `lit(\d)`. -/
def searchLitDigit (lit : List Char) : List Char → Option Nat
  | [] => litDigitAt lit []
  | c :: rest =>
    match litDigitAt lit (c :: rest) with
    | some d => some d
    | none => searchLitDigit lit rest

/-- The regex `^(\d)$` on an already-stripped string: the whole string is one digit. -/
def wholeSingleDigit (l : List Char) : Option Nat :=
  match l with
  | [d] => if isDigitB d then some (digitVal d) else none
  | _ => none

/-- One step of the pattern loop in `_parse_option_selection`: if the pattern
matched, return its digit when it lies in 1..3, otherwise continue with the
remaining patterns. -/
def rangeOr (r : Option Nat) (k : Option Nat) : Option Nat :=
  match r with
  | some n => if 1 ≤ n ∧ n ≤ 3 then some n else k
  | none => k

/-- The literal of the regex `let\'s use option (\d)`. -/
def letsUseOptionLit : List Char := S "let" ++ [Char.ofNat 39] ++ S "s use option "

/-- The ordered pattern loop of `_parse_option_selection`. -/
def patternScan (il : List Char) : Option Nat :=
  rangeOr (searchLitDigit (S "choose option ") il) (
  rangeOr (searchLitDigit (S "option ") il) (
  rangeOr (searchLitDigit (S "use option ") il) (
  rangeOr (searchLitDigit (S "select option ") il) (
  rangeOr (searchLitDigit (S "go with option ") il) (
  rangeOr (searchLitDigit letsUseOptionLit il) (
  rangeOr (wholeSingleDigit il) (
  rangeOr (searchLitDigit (S "option number ") il) (
  rangeOr (searchLitDigit (S "number ") il) (
  rangeOr (searchLitDigit (S "#") il) none)))))))))

/-- Word-character test for the regex `\b` boundary (ASCII `\w`). -/
def isWordChar (c : Char) : Bool :=
  ('a' ≤ c && c ≤ 'z') || ('A' ≤ c && c ≤ 'Z') || isDigitB c || c == '_'

/-- Scan for a whole-word occurrence (`\b w \b`) of `w`, tracking the character
just before the current position. -/
def hasWordAux (w : List Char) : Option Char → List Char → Bool
  | prev, l =>
    let bOk : Bool := match prev with | none => true | some c => !isWordChar c
    let after : Bool :=
      match l.drop w.length with
      | [] => true
      | c :: _ => !isWordChar c
    (bOk && startsW w l && after) ||
      match l with
      | [] => false
      | c :: rest => hasWordAux w (some c) rest

/-- The regex `\b(w)\b` found somewhere in `l` (`re.search` succeeds). -/
def hasWordB (w l : List Char) : Bool := hasWordAux w none l

/-- The word-pattern loop of `_parse_option_selection` (only applied to inputs of at
most 20 characters). -/
def wordScan (il : List Char) : Option Nat :=
  if hasWordB (S "first") il || hasWordB (S "one") il then some 1
  else if hasWordB (S "second") il || hasWordB (S "two") il then some 2
  else if hasWordB (S "third") il || hasWordB (S "three") il then some 3
  else none

/-- Embedding of `VideoScriptCLI._parse_option_selection`. -/
def parseOptionSelection (input : List Char) : Option Nat :=
  let il := pyStrip (pyLower input)
  if startsW (S "draft:") il || startsW (S "draft ") il || startsW (S "enhance") il ||
      startsW (S "research:") il || startsW (S "example:") il ||
      decide (input.length > 50) then
    none
  else
    match patternScan il with
    | some n => some n
    | none => if il.length ≤ 20 then wordScan il else none

/-! ### handle_timing_preference (src/src/agents/story_architect_enhanced.py 77-115) -/

/-- Length of the leading whitespace run (a greedy regex over the class of
whitespace characters). -/
def wsRun (l : List Char) : Nat := (l.takeWhile isSpaceB).length

/-- Matched length of the alternation `(?:second|minute|min|sec|s|m)` at the head of
`l`, alternatives tried in source order. -/
def unitAlt (l : List Char) : Option Nat :=
  if startsW (S "second") l then some 6
  else if startsW (S "minute") l then some 6
  else if startsW (S "min") l then some 3
  else if startsW (S "sec") l then some 3
  else if startsW (S "s") l then some 1
  else if startsW (S "m") l then some 1
  else none

/-- The part of the duration-with-unit regex after the leading digit run:
`(?:-\d+)?\s*(?:second|minute|min|sec|s|m)`.  The optional `(?:-\d+)?` is greedy:
the branch with the dash is tried first and the branch without it on failure. -/
def durationUnitTail (rest1 : List Char) : Option (List Char) :=
  let withDash : Option (List Char) :=
    match rest1 with
    | '-' :: r2 =>
      (match r2 with
       | c2 :: _ =>
         if isDigitB c2 then
           let d2 := takeDigits r2
           let rest2 := r2.drop d2.length
           let w := wsRun rest2
           match unitAlt (rest2.drop w) with
           | some k => some ('-' :: (d2 ++ rest2.take w ++ (rest2.drop w).take k))
           | none => none
         else none
       | [] => none)
    | _ => none
  match withDash with
  | some g => some g
  | none =>
    let w := wsRun rest1
    match unitAlt (rest1.drop w) with
    | some k => some (rest1.take w ++ (rest1.drop w).take k)
    | none => none

/-- Attempt of the regex `(\d+(?:-\d+)?\s*(?:second|minute|min|sec|s|m))` anchored at
the head of `l`, returning the captured group. -/
def durationUnitAt (l : List Char) : Option (List Char) :=
  match l with
  | [] => none
  | c :: _ =>
    if isDigitB c then
      let d1 := takeDigits l
      match durationUnitTail (l.drop d1.length) with
      | some r => some (d1 ++ r)
      | none => none
    else none

/-- Leftmost `re.search` of the duration-with-unit regex. -/
def searchDurationUnit : List Char → Option (List Char)
  | [] => none
  | c :: rest =>
    match durationUnitAt (c :: rest) with
    | some g => some g
    | none => searchDurationUnit rest

/-- Matched length of `\s*(?:seconds?|secs?|s)` at the head of `l` (alternatives in
greedy order), for the seconds-normalizing `re.sub`. -/
def secPatAt (l : List Char) : Option Nat :=
  let w := wsRun l
  let r := l.drop w
  if startsW (S "seconds") r then some (w + 7)
  else if startsW (S "second") r then some (w + 6)
  else if startsW (S "secs") r then some (w + 4)
  else if startsW (S "sec") r then some (w + 3)
  else if startsW (S "s") r then some (w + 1)
  else none

/-- Matched length of `\s*(?:minutes?|mins?|m)` at the head of `l`, for the
minutes-normalizing `re.sub`. -/
def minPatAt (l : List Char) : Option Nat :=
  let w := wsRun l
  let r := l.drop w
  if startsW (S "minutes") r then some (w + 7)
  else if startsW (S "minute") r then some (w + 6)
  else if startsW (S "mins") r then some (w + 4)
  else if startsW (S "min") r then some (w + 3)
  else if startsW (S "m") r then some (w + 1)
  else none

/-- Python `re.sub` for a pattern given by an anchored matcher `patAt` (leftmost,
non-overlapping, fuelled for termination). -/
def pySubAux (patAt : List Char → Option Nat) (rep : List Char) : Nat → List Char → List Char
  | 0, l => l
  | _ + 1, [] => []
  | fuel + 1, c :: rest =>
    match patAt (c :: rest) with
    | some n => rep ++ pySubAux patAt rep fuel ((c :: rest).drop n)
    | none => c :: pySubAux patAt rep fuel rest

/-- Python `re.sub pat rep l` via an anchored matcher. -/
def pySubst (patAt : List Char → Option Nat) (rep l : List Char) : List Char :=
  pySubAux patAt rep l.length l

/-- The test `duration[-1] == "s" and not duration.endswith("minutes")` (on the
non-empty captured group). -/
def lastCharS (d : List Char) : Bool :=
  match d.reverse with
  | c :: _ => c == 's' && !endsW (S "minutes") d
  | [] => false

/-- The unit-normalization step applied to the captured duration. -/
def normalizeDuration (d : List Char) : List Char :=
  if hasSub (S "sec") d || lastCharS d then pySubst secPatAt (S " seconds") d
  else pySubst minPatAt (S " minutes") d

/-- The part of the bare-number regexp after the leading digit run: end of string,
or a dash, a second digit run and the end of the string. -/
def bareNumTail (rest : List Char) : Option (Option (List Char)) :=
  match rest with
  | [] => some none
  | '-' :: r2 =>
    (match r2 with
     | c2 :: _ =>
       if isDigitB c2 then
         let d2 := takeDigits r2
         if r2.drop d2.length = [] then some (some d2) else none
       else none
     | [] => none)
  | _ => none

/-- The regex `^(\d+)(?:-(\d+))?$` applied to the stripped raw input (the bare-number
branch of `handle_timing_preference`). -/
def bareNumMatch (l : List Char) : Option (List Char × Option (List Char)) :=
  match l with
  | [] => none
  | c :: _ =>
    if isDigitB c then
      let d1 := takeDigits l
      match bareNumTail (l.drop d1.length) with
      | some od2 => some (d1, od2)
      | none => none
    else none

/-- Embedding of the dictionary `platform_defaults` read with
`platform_defaults.get(state.platform, "2-3 minutes")`. -/
def platformDefault (platform : List Char) : List Char :=
  if platform = S "tiktok" then S "30-60 seconds"
  else if platform = S "instagram" then S "1-2 minutes"
  else if platform = S "youtube" then S "5-7 minutes"
  else if platform = S "general" then S "2-3 minutes"
  else S "2-3 minutes"

/-- The duration string computed by `handle_timing_preference` from the user input. -/
def extractDuration (platform input : List Char) : List Char :=
  if input = [] ∨ pyStrip input = [] then platformDefault platform
  else
    match searchDurationUnit (pyLower input) with
    | some g => pyStrip (normalizeDuration g)
    | none =>
      match bareNumMatch (pyStrip input) with
      | some (d1, some d2) => d1 ++ '-' :: (d2 ++ S " minutes")
      | some (d1, none) => d1 ++ S " minutes"
      | none => platformDefault platform

/-- The `story.metadata` keys touched by `handle_timing_preference`. -/
structure TimingMeta where
  video_duration : Option (List Char)
  awaiting_timing : Option Bool
deriving DecidableEq, Repr

/-- Embedding of `EnhancedStoryArchitect.handle_timing_preference`: computes the
duration, stores it in `story.metadata`, clears `awaiting_timing`, and returns the
duration. -/
def handleTimingPreference (platform input : List Char) (md : TimingMeta) :
    TimingMeta × List Char :=
  let d := extractDuration platform input
  ({ md with video_duration := some d, awaiting_timing := some false }, d)

/-! ### _parse_hooks (src/src/agents/hook_specialist.py 338-417) -/

/-- The quote character `chr 34`, written by code point to keep literals simple. -/
def quoteChar : Char := Char.ofNat 34

/-- Python `str.strip` with the quote character, used as `.strip(chr 34)`. -/
def stripQuotes (l : List Char) : List Char :=
  ((l.dropWhile (· == quoteChar)).reverse.dropWhile (· == quoteChar)).reverse

/-- One parsed hook dictionary: the keys `type` / `text` / `visual` / `duration`
written by `_parse_hooks` (a missing key is `none`). -/
structure HookInfo where
  type : Option (List Char)
  text : Option (List Char)
  visual : Option (List Char)
  duration : Option (List Char)
deriving DecidableEq, Repr

/-- The empty dictionary `current_hook = {}`. -/
def emptyHook : HookInfo := ⟨none, none, none, none⟩

/-- Python truthiness of the `current_hook` dictionary. -/
def hookNonempty (h : HookInfo) : Bool :=
  h.type.isSome || h.text.isSome || h.visual.isSome || h.duration.isSome

/-- One iteration of the structured-format line loop of `_parse_hooks`; the state is
`(hooks, current_hook, in_hook)`. -/
def procLine (st : List HookInfo × HookInfo × Bool) (rawline : List Char) :
    List HookInfo × HookInfo × Bool :=
  let hooks := st.1
  let current := st.2.1
  let in_hook := st.2.2
  let line := pyStrip rawline
  if startsW (S "HOOK") line && hasSub (S ":") line then
    (if hookNonempty current && current.text.isSome then hooks ++ [current] else hooks,
     emptyHook, true)
  else if in_hook then
    if startsW (S "Type:") line then
      (hooks, { current with type := some (pyStrip (pyReplace line (S "Type:") [])) }, in_hook)
    else if startsW (S "Text:") line then
      (hooks,
       { current with text := some (stripQuotes (pyStrip (pyReplace line (S "Text:") []))) },
       in_hook)
    else if startsW (S "Visual Note:") line || startsW (S "Visual:") line then
      let v := some (pyStrip (pyReplace (pyReplace line (S "Visual Note:") []) (S "Visual:") []))
      (hooks, { current with visual := v }, in_hook)
    else if startsW (S "Duration:") line then
      (hooks, { current with duration := some (pyStrip (pyReplace line (S "Duration:") [])) },
       in_hook)
    else (hooks, current, in_hook)
  else (hooks, current, in_hook)

/-- The structured pass of `_parse_hooks`: process every line, then flush the last
`current_hook`. -/
def structuredHooks (lines : List (List Char)) : List HookInfo :=
  let st := lines.foldl procLine ([], emptyHook, false)
  if hookNonempty st.2.1 && st.2.1.text.isSome then st.1 ++ [st.2.1] else st.1

/-- Python `line.lstrip("0123456789.-•* ")`. -/
def lstripMarkSet (l : List Char) : List Char :=
  l.dropWhile (fun c => isDigitB c || c == '.' || c == '-' || c == '•' || c == '*' || c == ' ')

/-- The numbered/bulleted candidate lines collected by the fallback of
`_parse_hooks`. -/
def numberedCandidates (lines : List (List Char)) : List (List Char) :=
  lines.foldr
    (fun raw acc =>
      let line := pyStrip raw
      if startsW (S "1.") line || startsW (S "2.") line || startsW (S "3.") line ||
          startsW (S "-") line || startsW (S "•") line || startsW (S "*") line then
        let text := pyStrip (lstripMarkSet line)
        if 20 < text.length then text :: acc else acc
      else acc)
    []

/-- The cyclic type list `["Curiosity Gap", "Problem/Agitation", "Statistical Shock"][i % 3]`. -/
def candType (i : Nat) : List Char :=
  match i % 3 with
  | 0 => S "Curiosity Gap"
  | 1 => S "Problem/Agitation"
  | _ => S "Statistical Shock"

/-- A hook built from a numbered/bulleted candidate line. -/
def candidateHook (i : Nat) (text : List Char) : HookInfo :=
  ⟨some (candType i), some (text.take 200), some (S "Engaging visuals related to the topic"),
   some (S "5-8 seconds")⟩

/-- The first meaningful stripped lines (length above 20), for the last-resort pass. -/
def firstLinesOf (lines : List (List Char)) : List (List Char) :=
  ((lines.map pyStrip).filter (fun l => !l.isEmpty && decide (20 < l.length))).take 3

/-- The type list `["Generated Hook", "Alternative Hook", "Creative Hook"][i]`. -/
def firstLineType (i : Nat) : List Char :=
  match i with
  | 0 => S "Generated Hook"
  | 1 => S "Alternative Hook"
  | _ => S "Creative Hook"

/-- A hook built from a first-lines candidate. -/
def firstLineHook (i : Nat) (text : List Char) : HookInfo :=
  ⟨some (firstLineType i), some (text.take 200), some (S "Standard opening visuals"),
   some (S "5-8 seconds")⟩

/-- The hard-coded hook appended when every strategy failed. -/
def defaultHook (resp : List Char) : HookInfo :=
  ⟨some (S "Default"),
   some (S "Discover how " ++ (if resp.isEmpty then S "this topic" else resp.take 100) ++
     S " can transform your approach"),
   some (S "Engaging opening sequence"), some (S "5-8 seconds")⟩

/-- The last-resort step of `_parse_hooks`: if still no hooks, append the
hard-coded default hook. -/
def padDefault (resp : List Char) (hooks : List HookInfo) : List HookInfo :=
  if hooks.isEmpty then [defaultHook resp] else hooks

/-- Embedding of `HookSpecialistAgent._parse_hooks`. -/
def parseHooks (hooks_response : List Char) : List HookInfo :=
  let lines := splitLines hooks_response
  let hooks := structuredHooks lines
  if hooks.length = 3 then hooks
  else
    let hooks :=
      if hooks.length < 3 then
        hooks ++
          ((numberedCandidates lines).take (3 - hooks.length)).enum.map
            (fun p => candidateHook p.1 p.2)
      else hooks
    let hooks :=
      if hooks.isEmpty && !hooks_response.isEmpty then
        hooks ++ (firstLinesOf lines).enum.map (fun p => firstLineHook p.1 p.2)
      else hooks
    (padDefault hooks_response hooks).take 3

/-! ### generate_fallback_hook and extract_hook_metadata (src/hook_parser.py 79-148) -/

/-- The apostrophe character `chr 39`, written by code point to keep literals simple. -/
def apos : Char := Char.ofNat 39

/-- Embedding of `generate_fallback_hook`. -/
def generateFallbackHook (hook_type : List Char) : List Char :=
  let t := pyLower hook_type
  if hasSub (S "problem") t || hasSub (S "agitation") t then
    S "Stop wasting hours on repetitive tasks that drain your energy and kill your productivity."
  else if hasSub (S "curiosity") t then
    S "There" ++ apos ::
      S "s a secret that top performers use to get 10x more done in half the time..."
  else if hasSub (S "statistical") t || hasSub (S "shock") t then
    S "Studies show that 87% of people are doing this completely wrong. Are you one of them?"
  else if hasSub (S "question") t then
    S "What if you could transform your workflow in just 5 minutes a day?"
  else if hasSub (S "story") t then
    S "Six months ago, I was overwhelmed. Today, I run my business on autopilot. Here" ++
      apos :: S "s how..."
  else if hasSub (S "benefit") t then
    S "Discover the simple technique that" ++ apos ::
      S "s helping thousands achieve their goals faster."
  else
    S "This one simple change transformed everything for me. Let me show you how."

/-- Whether the lookahead `(?=Option\s+\d+:)` matches at the head of `l`: the literal
`Option`, at least one whitespace, at least one digit, then a colon.  The greedy
`\s+` and `\d+` need no backtracking (shrinking them exposes a character the next
piece cannot accept). -/
def matchOptionHeaderB (l : List Char) : Bool :=
  startsW (S "Option") l &&
    (let r := l.drop 6
     let w := wsRun r
     decide (1 ≤ w) &&
       (let r2 := r.drop w
        let d := takeDigits r2
        !d.isEmpty && startsW (S ":") (r2.drop d.length)))

/-- Worker for `re.split` on the zero-width lookahead `(?=Option\s+\d+:)`: a new
piece begins at every position where the lookahead matches. -/
def splitOptionsGo (acc : List Char) : List Char → List (List Char)
  | [] => [acc.reverse]
  | c :: rest =>
    if matchOptionHeaderB (c :: rest) then acc.reverse :: splitOptionsGo [c] rest
    else splitOptionsGo (c :: acc) rest

/-- The `re.split` of `extract_hook_metadata`. -/
def splitOptions (l : List Char) : List (List Char) := splitOptionsGo [] l

/-- Maximal run of non-newline characters, the greedy `[^\n]+` body. -/
def nonNlRun (l : List Char) : List Char := l.takeWhile (fun c => c != '\n')

/-- One attempt of `\s*([^\n]+)` after consuming `k` whitespace characters: the
capture must start with a character other than a newline. -/
def capLineFrom (l : List Char) (k : Nat) : Option (List Char × List Char) :=
  match l.drop k with
  | c :: _ =>
    if c == '\n' then none
    else
      let run := nonNlRun (l.drop k)
      some (run, (l.drop k).drop run.length)
  | [] => none

/-- Greedy `\s*` with backtracking so the following `[^\n]+` is non-empty: try the
largest whitespace consumption first. -/
def capLineLoop (l : List Char) : Nat → Option (List Char × List Char)
  | 0 => capLineFrom l 0
  | k + 1 =>
    match capLineFrom l (k + 1) with
    | some g => some g
    | none => capLineLoop l k

/-- The pattern piece `\s*([^\n]+)`: capture and remainder. -/
def capLine (l : List Char) : Option (List Char × List Char) := capLineLoop l (wsRun l)

/-- The `re.match(r"Option\s+(\d+):\s*([^\n]+)", option)` of `extract_hook_metadata`,
returning the two groups. -/
def headerMatch (piece : List Char) : Option (Nat × List Char) :=
  if startsW (S "Option") piece then
    let r := piece.drop 6
    let w := wsRun r
    if 1 ≤ w then
      let r2 := r.drop w
      let d := takeDigits r2
      if !d.isEmpty then
        match r2.drop d.length with
        | ':' :: r3 => (capLine r3).map (fun g => (digitsVal d, g.1))
        | _ => none
      else none
    else none
  else none

/-- The tail alternative `(?:\n(?:🎬|⏱️)|$)` of the script regex; `$` matches at the
end of the string or just before a final newline. -/
def scriptTailCond (l : List Char) : Bool :=
  startsW (S "\n🎬") l || startsW ('\n' :: S "⏱️") l || l.isEmpty || l == ['\n']

/-- The lazy capture `([^\n]*?)` of the script regex: the shortest run of
non-newline characters after which the tail condition holds. -/
def lazyCap : List Char → Option (List Char)
  | [] => if scriptTailCond [] then some [] else none
  | c :: rest =>
    if scriptTailCond (c :: rest) then some []
    else if c == '\n' then none
    else (lazyCap rest).map (fun g => c :: g)

/-- Greedy `\s*` before the lazy capture: larger whitespace consumption is tried
first, and for each amount the capture grows lazily (the capture backtracks before
the `\s*` does). -/
def scriptCapLoop (l : List Char) : Nat → Option (List Char)
  | 0 => lazyCap l
  | k + 1 =>
    match lazyCap (l.drop (k + 1)) with
    | some g => some g
    | none => scriptCapLoop l k

/-- Attempt of `📝\s*Script:\s*([^\n]*?)(?:\n(?:🎬|⏱️)|$)` at the head of `l`.
Shrinking the first `\s*` exposes a whitespace character where `Script:` is
required, so it needs no backtracking. -/
def scriptAt (l : List Char) : Option (List Char) :=
  if startsW (S "📝") l then
    let r := l.drop 1
    let r2 := r.drop (wsRun r)
    if startsW (S "Script:") r2 then
      let r3 := r2.drop 7
      scriptCapLoop r3 (wsRun r3)
    else none
  else none

/-- Leftmost `re.search` of the script regex. -/
def scriptSearch : List Char → Option (List Char)
  | [] => none
  | c :: rest =>
    match scriptAt (c :: rest) with
    | some g => some g
    | none => scriptSearch rest

/-- The continuation `(?:\n(?!⏱️|📝|Option)[^\n]+)*` of the visual regex (greedy,
fuelled; nothing follows it in the pattern, so maximal repetition is final). -/
def visContGo : Nat → List Char → List Char
  | 0, _ => []
  | fuel + 1, l =>
    match l with
    | '\n' :: rest =>
      if startsW (S "⏱️") rest || startsW (S "📝") rest || startsW (S "Option") rest then []
      else
        match rest with
        | c :: _ =>
          if c == '\n' then []
          else
            let run := nonNlRun rest
            '\n' :: (run ++ visContGo fuel (rest.drop run.length))
        | [] => []
    | _ => []

/-- Attempt of `🎬\s*Visual:\s*([^\n]+(?:\n(?!⏱️|📝|Option)[^\n]+)*)` at the head. -/
def visualAt (l : List Char) : Option (List Char) :=
  if startsW (S "🎬") l then
    let r := l.drop 1
    let r2 := r.drop (wsRun r)
    if startsW (S "Visual:") r2 then
      (capLine (r2.drop 7)).map (fun g => g.1 ++ visContGo g.2.length g.2)
    else none
  else none

/-- Leftmost `re.search` of the visual regex. -/
def visualSearch : List Char → Option (List Char)
  | [] => none
  | c :: rest =>
    match visualAt (c :: rest) with
    | some g => some g
    | none => visualSearch rest

/-- Attempt of `⏱️\s*Duration:\s*([^\n]+)` at the head (the stopwatch emoji is the
two code points 0x23F1 0xFE0F, as in the source). -/
def durationAt (l : List Char) : Option (List Char) :=
  if startsW (S "⏱️") l then
    let r := l.drop 2
    let r2 := r.drop (wsRun r)
    if startsW (S "Duration:") r2 then (capLine (r2.drop 9)).map (fun g => g.1) else none
  else none

/-- Leftmost `re.search` of the duration regex. -/
def durationSearch : List Char → Option (List Char)
  | [] => none
  | c :: rest =>
    match durationAt (c :: rest) with
    | some g => some g
    | none => durationSearch rest

/-- One parsed dictionary of `extract_hook_metadata`: keys `number` / `type` /
`script` / `visual` / `duration`. -/
structure HookMeta where
  number : Option Nat
  type : Option (List Char)
  script : Option (List Char)
  visual : Option (List Char)
  duration : Option (List Char)
deriving DecidableEq, Repr

/-- Processing of one piece of the split, mirroring the loop body of
`extract_hook_metadata`; `none` when the piece is skipped or contributes no hook. -/
def extractFromOption (piece : List Char) : Option HookMeta :=
  if (pyStrip piece).isEmpty || !startsW (S "Option") piece then none
  else
    let header := headerMatch piece
    let number := header.map (fun h => h.1)
    let type := header.map (fun h => pyStrip h.2)
    let script : Option (List Char) :=
      match scriptSearch piece with
      | some g =>
        let sc := stripQuotes (pyStrip g)
        if !sc.isEmpty && !startsW (S "🎬") sc then some sc
        else
          match type with
          | some t => some (generateFallbackHook t)
          | none => none
      | none =>
        match type with
        | some t => some (generateFallbackHook t)
        | none => none
    let visual := (visualSearch piece).map pyStrip
    let duration := (durationSearch piece).map pyStrip
    match script with
    | some sc => if !sc.isEmpty then some ⟨number, type, script, visual, duration⟩ else none
    | none => none

/-- Embedding of `extract_hook_metadata`. -/
def extractHookMetadata (content : List Char) : List HookMeta :=
  (splitOptions content).filterMap extractFromOption

/-! ### State model (src/src/models/config.py 66-75) and option generation
(src/src/agents/hook_specialist.py 100-121) -/

/-- The `story.metadata` keys used by the enhanced story workflow (a dictionary with
a known key set; a missing key is `none`). -/
structure StoryMeta where
  workflow_mode : Option (List Char)
  awaiting_timing : Option Bool
  current_act : Option ℤ
  acts_content : Option (List (ℤ × List Char))
  enhanced_draft : Option (List Char)
  video_duration : Option (List Char)
deriving DecidableEq, Repr

/-- The empty metadata dictionary. -/
def emptyMeta : StoryMeta := ⟨none, none, none, none, none, none⟩

/-- Embedding of `ScriptComponent` (`src/src/models/config.py`); `acts_content` keys
`act_1`/`act_2`/`act_3` are modelled by their integer index. -/
structure ScriptComponent where
  type : List Char
  content : List Char
  finalized : Bool
  iterations : ℤ
  feedback_history : List (List Char)
  metadata : StoryMeta
  all_options : List HookInfo
deriving DecidableEq, Repr

/-- A fresh `ScriptComponent(type=t, content="", finalized=False)` with the model
defaults of the remaining fields. -/
def newComponent (t : List Char) : ScriptComponent :=
  ⟨t, [], false, 0, [], emptyMeta, []⟩

/-- Embedding of `HookSpecialistAgent._generate_initial_hooks` restricted to its
state effect: `state.hook.all_options = hooks` replaces the stored options with the
batch returned by the generation call (the batch itself comes from the external
model and is a parameter). -/
def generateInitialHooks (hooks : List HookInfo) (c : ScriptComponent) : ScriptComponent :=
  { c with all_options := hooks }

/-- Embedding of `HookSpecialistAgent._generate_more_hooks` restricted to its state
effect: every newly generated hook is appended to `state.hook.all_options`. -/
def generateMoreHooks (new_hooks : List HookInfo) (c : ScriptComponent) : ScriptComponent :=
  { c with all_options := c.all_options ++ new_hooks }

/-! ### Conversation history and option selection (src/main.py 627-709) -/

/-- One option dictionary as stored in a `*_generated` history event; the key set
is the union of the keys read by `_handle_option_selection`. -/
structure OptDict where
  text : Option (List Char)
  primary_text : Option (List Char)
  structureField : Option (List Char)
  content : Option (List Char)
deriving DecidableEq, Repr

/-- One event of `conversation_history` (the tagged records appended by the CLI). -/
inductive HistEvent where
  | hooksGenerated (options : List OptDict)
  | ctasGenerated (options : List OptDict)
  | storiesGenerated (options : List OptDict)
  | hookSelected (option_num : Nat)
  | awaitingMoodResponse
  | otherEvent
deriving DecidableEq, Repr

/-- The component kind of a `*_generated` event. -/
inductive OptKind where
  | hookK
  | ctaK
  | storyK
deriving DecidableEq, Repr

/-- Kind and options of a generated-options event, `none` for other events. -/
def genEventInfo : HistEvent → Option (OptKind × List OptDict)
  | .hooksGenerated options => some (.hookK, options)
  | .ctasGenerated options => some (.ctaK, options)
  | .storiesGenerated options => some (.storyK, options)
  | _ => none

/-- The backward scan of `_handle_option_selection`: the most recent
`hooks_generated` / `ctas_generated` / `stories_generated` event. -/
def findRecentOptions (history : List HistEvent) : Option (OptKind × List OptDict) :=
  history.reverse.findSome? genEventInfo

/-- The CLI state fields used by the interaction loop. -/
structure CLIState where
  hook : Option ScriptComponent
  story : Option ScriptComponent
  cta : Option ScriptComponent
  conversation_history : List HistEvent
deriving DecidableEq, Repr

/-- The user-visible outcome of `_handle_option_selection` (which console message
was printed). -/
inductive SelResponse where
  | selectedHook (n : Nat)
  | selectedCta (n : Nat)
  | selectedStory (n : Nat)
  | noRecentOptions
deriving DecidableEq, Repr

/-- Embedding of `VideoScriptCLI._handle_option_selection`. -/
def handleOptionSelection (option_num : Nat) (s : CLIState) : CLIState × SelResponse :=
  match findRecentOptions s.conversation_history with
  | some (kind, opts) =>
    if !opts.isEmpty && option_num ≤ opts.length then
      let selected := opts.getD (option_num - 1) ⟨none, none, none, none⟩
      match kind with
      | .hookK =>
        let hook0 := s.hook.getD (newComponent (S "hook"))
        ({ s with
            hook := some { hook0 with content := selected.text.getD [], finalized := true },
            conversation_history := s.conversation_history ++ [.hookSelected option_num] },
         .selectedHook option_num)
      | .ctaK =>
        let cta0 := s.cta.getD (newComponent (S "cta"))
        let newContent := selected.primary_text.getD (selected.text.getD [])
        ({ s with cta := some { cta0 with content := newContent, finalized := true } },
         .selectedCta option_num)
      | .storyK =>
        let story0 := s.story.getD (newComponent (S "story"))
        let newContent := selected.structureField.getD (selected.content.getD [])
        ({ s with story := some { story0 with content := newContent, finalized := true } },
         .selectedStory option_num)
    else (s, .noRecentOptions)
  | none => (s, .noRecentOptions)

/-! ### process_act_development (src/src/agents/story_architect_enhanced.py 149-317) -/

/-- Dictionary read `m.get(k, d)` on the acts-content association list. -/
def dictGet (m : List (ℤ × List Char)) (k : ℤ) (d : List Char) : List Char :=
  match m.find? (fun p => p.1 == k) with
  | some p => p.2
  | none => d

/-- Dictionary write `m[k] = v` (update in place or append, as a Python dict). -/
def dictSet (m : List (ℤ × List Char)) (k : ℤ) (v : List Char) : List (ℤ × List Char) :=
  if m.any (fun p => p.1 == k) then m.map (fun p => if p.1 == k then (k, v) else p)
  else m ++ [(k, v)]

/-- Decimal rendering of an integer. -/
def intDigits (z : ℤ) : List Char :=
  if z < 0 then '-' :: natDigits (-z).toNat else natDigits z.toNat

/-- Everything after the first colon, Python `s.split(":", 1)[1]` when a colon is
present. -/
def afterFirstColon : List Char → List Char
  | [] => []
  | c :: rest => if c == ':' then rest else afterFirstColon rest

/-- The handler that produced the response of `process_act_development`, with the
state-relevant payloads; this is the embedding of which return site fired. -/
inductive ActResponse where
  | researchR (topic : List Char)
  | examplesR (concept : List Char)
  | errNoEnhanced
  | errEmptyEnhanced
  | usedEnhanced (draft : List Char)
  | keptOriginal (original : List Char)
  | errEmptyDraft
  | draftReviewed (stored : List Char)
  | errNoDraftToEnhance
  | enhancementProvided (enhanced : List Char)
  | nextAct (new_act : ℤ)
  | scriptComplete
  | showScriptR
  | feedbackR
deriving DecidableEq, Repr

/-- Embedding of `EnhancedStoryArchitect.review_draft` restricted to its state
effect: store (or, for an addition, append to) the draft of the current act. -/
def reviewDraft (story : ScriptComponent) (draft : List Char) (act_num : ℤ)
    (is_addition : Bool) : ScriptComponent × ActResponse :=
  let m := story.metadata
  let acts := m.acts_content.getD []
  let existing := dictGet acts act_num []
  let stored :=
    if is_addition && !existing.isEmpty then existing ++ '\n' :: '\n' :: draft else draft
  ({ story with metadata := { m with acts_content := some (dictSet acts act_num stored) } },
   .draftReviewed stored)

/-- Embedding of `EnhancedStoryArchitect.enhance_draft` restricted to its state
effect: stage the model rewrite (the `llm` parameter) as `enhanced_draft`, or report
that there is no draft to enhance. -/
def enhanceDraft (llm : List Char) (story : ScriptComponent) (act_num : ℤ) :
    ScriptComponent × ActResponse :=
  let existing := dictGet (story.metadata.acts_content.getD []) act_num []
  if existing.isEmpty then (story, .errNoDraftToEnhance)
  else
    ({ story with metadata := { story.metadata with enhanced_draft := some llm } },
     .enhancementProvided llm)

/-- Embedding of `EnhancedStoryArchitect.move_to_next_act` (at act 3 or later it
falls through to `complete_script`, which finalizes the story). -/
def moveToNextAct (story : ScriptComponent) : ScriptComponent × ActResponse :=
  let current_act := story.metadata.current_act.getD 1
  if 3 ≤ current_act then ({ story with finalized := true }, .scriptComplete)
  else
    ({ story with metadata := { story.metadata with current_act := some (current_act + 1) } },
     .nextAct (current_act + 1))

/-- Python truthiness of an optional string. -/
def optStrTruthy : Option (List Char) → Bool
  | some l => !l.isEmpty
  | none => false

/-- Embedding of `EnhancedStoryArchitect.process_act_development`.  The `llm`
parameter is the text the external model would return to the handler that fires (it
only reaches the state through `enhance_draft`). -/
def processActDevelopment (llm : List Char) (story : ScriptComponent) (input : List Char) :
    ScriptComponent × ActResponse :=
  let current_act := story.metadata.current_act.getD 1
  let story :=
    if story.metadata.acts_content.isNone then
      { story with metadata := { story.metadata with acts_content := some [] } }
    else story
  let ul := pyStrip (pyLower input)
  if startsW (S "research:") ul then (story, .researchR (pyStrip (input.drop 9)))
  else if startsW (S "example:") ul || startsW (S "examples:") ul ||
      hasSub (S "add example") ul || hasSub (S "add some example") ul ||
      hasSub (S "can you add example") ul || hasSub (S "give me example") ul then
    let concept :=
      if hasSub (S ":") input then pyStrip (afterFirstColon input)
      else S "relevant to Act " ++ intDigits current_act ++ S " content"
    (story, .examplesR concept)
  else
    let enhanced_draft := story.metadata.enhanced_draft
    let edTruthy := optStrTruthy enhanced_draft
    if hasSub (S "use enhanced") ul && !edTruthy then (story, .errNoEnhanced)
    else if edTruthy && hasSub (S "use enhanced") ul then
      let ed := enhanced_draft.getD []
      if (pyStrip ed).isEmpty then (story, .errEmptyEnhanced)
      else
        let m := story.metadata
        let acts := some (dictSet (m.acts_content.getD []) current_act ed)
        ({ story with metadata := { m with acts_content := acts, enhanced_draft := none } },
         .usedEnhanced ed)
    else if edTruthy && hasSub (S "keep original") ul then
      let m := story.metadata
      let original := dictGet (m.acts_content.getD []) current_act []
      ({ story with metadata := { m with enhanced_draft := none } }, .keptOriginal original)
    else
      let draft_with_colon := startsW (S "draft:") ul
      let draft_with_space := startsW (S "draft ") ul && decide (6 < (pyStrip input).length)
      if draft_with_colon || draft_with_space then
        let draft_content := pyStrip (input.drop 6)
        if draft_content.isEmpty then (story, .errEmptyDraft)
        else reviewDraft story draft_content current_act false
      else if (hasSub (S "enhance") ul || hasSub (S "improve") ul ||
          hasSub (S "make better") ul || hasSub (S "refine") ul || hasSub (S "polish") ul ||
          hasSub (S "upgrade") ul || hasSub (S "strengthen") ul ||
          hasSub (S "optimize") ul) && decide (input.length < 100) then
        enhanceDraft llm story current_act
      else if hasSub (S "next act") (pyLower input) then moveToNextAct story
      else if hasSub (S "show script") (pyLower input) then (story, .showScriptR)
      else
        let is_addition := startsW (S "also") ul || startsW (S "additionally") ul ||
          startsW (S "plus") ul || startsW (S "and") ul || startsW (S "furthermore") ul ||
          startsW (S "moreover") ul || startsW (S "in addition") ul
        let is_request := startsW (S "can you") ul || startsW (S "could you") ul ||
          startsW (S "would you") ul || startsW (S "please") ul || startsW (S "help me") ul ||
          startsW (S "what if") ul || startsW (S "how about") ul
        if is_request then (story, .feedbackR)
        else reviewDraft story input current_act is_addition

/-! ### Router resolution order (src/main.py 405-566) -/

/-- The dispatch target chosen by one pass of the `interaction_loop` `if`/`elif`
chain, one constructor per handler in source order. -/
inductive Route where
  | exitR
  | helpR
  | statusR
  | saveR
  | exportR
  | listR
  | hookGenR
  | storyGenR
  | moodResponseR
  | timingR
  | optionSelectionR (n : Nat)
  | ctaFollowupR
  | ctaGenR
  | researchGlobalR
  | styleR
  | critiqueR
  | editHookR
  | editStoryR
  | editCtaR
  | actDevelopmentR
  | moreOptionsR
  | customR
  | orchestratorR
deriving DecidableEq, Repr

/-- Python truthiness of the optional selection number (`if option_selected:`). -/
def optTruthyNat : Option Nat → Bool
  | some n => n ≠ 0
  | none => false

/-- Whether a `ctas_generated` event occurs among the last three history items. -/
def lastCtaGenerated (history : List HistEvent) : Bool :=
  (history.reverse.take 3).any fun e =>
    match e with
    | .ctasGenerated _ => true
    | _ => false

/-- The CTA follow-up keyword test of the interaction loop. -/
def ctaKeywordsHit (l : List Char) : Bool :=
  hasSub (S "optimize") l || hasSub (S "urgency") l || hasSub (S "variant") l ||
    hasSub (S "youtube") l || hasSub (S "tiktok") l || hasSub (S "instagram") l ||
    hasSub (S "softer") l

/-- Embedding of the dispatch decision of `VideoScriptCLI.interaction_loop`: given
the state and the raw user input, the first branch of the chain that fires. -/
def route (s : CLIState) (input : List Char) : Route :=
  let l := pyLower input
  if l = S "exit" then .exitR
  else if l = S "help" then .helpR
  else if l = S "status" then .statusR
  else if l = S "save" then .saveR
  else if l = S "export" then .exportR
  else if l = S "list" then .listR
  else if l = S "hook" ∨ l = S "hooks" then .hookGenR
  else if l = S "story" ∨ l = S "narrative" ∨ l = S "structure" then .storyGenR
  else if (match s.conversation_history.getLast? with
      | some .awaitingMoodResponse => true
      | _ => false) then .moodResponseR
  else if (match s.story with
      | some st => st.metadata.awaiting_timing == some true
      | none => false) then .timingR
  else if optTruthyNat (parseOptionSelection input) then
    .optionSelectionR ((parseOptionSelection input).getD 0)
  else if lastCtaGenerated s.conversation_history && ctaKeywordsHit l then .ctaFollowupR
  else if l = S "cta" ∨ l = S "call to action" ∨ l = S "action" then .ctaGenR
  else if l = S "research" ∨ l = S "verify" ∨ l = S "fact-check" ∨ l = S "fact check" then
    .researchGlobalR
  else if l = S "humanize" ∨ l = S "style" ∨ l = S "tone" ∨ l = S "voice" then .styleR
  else if l = S "critique" ∨ l = S "review" ∨ l = S "challenge" ∨ l = S "feedback" then
    .critiqueR
  else if startsW (S "edit hook") l then .editHookR
  else if startsW (S "edit story") l then .editStoryR
  else if startsW (S "edit cta") l then .editCtaR
  else if (match s.story with
      | some st => st.metadata.workflow_mode == some (S "act_development")
      | none => false) then .actDevelopmentR
  else if l = S "more" ∨ l = S "more options" ∨ l = S "different" ∨ l = S "other" ∨
      l = S "alternative" then .moreOptionsR
  else if startsW (S "custom") l || startsW (S "my own") l || startsW (S "use this") l then
    .customR
  else .orchestratorR

/-! ### Well-formed option blocks, for the parser round-trip statements -/

/-- A field value that occupies exactly one line and survives `strip` unchanged:
non-empty, no newline, no leading or trailing whitespace. -/
def cleanField (f : List Char) : Bool :=
  !f.isEmpty && !f.any (fun c => c == '\n') &&
    !isSpaceB (f.headD ' ') && !isSpaceB (f.getLastD ' ')

/-- One well-formed `HOOK N:` block as described by the prompt template of the hook
specialist: a header line and the four labelled field lines. -/
structure HookBlock where
  type : List Char
  text : List Char
  visual : List Char
  duration : List Char
deriving DecidableEq, Repr

/-- The rendered text of a `HOOK N:` block (header plus the four field lines). -/
def renderHookBlock (n : Nat) (b : HookBlock) : List Char :=
  S "HOOK " ++ natDigits n ++ S ":" ++ '\n' ::
    (S "Type: " ++ b.type ++ '\n' ::
      (S "Text: " ++ b.text ++ '\n' ::
        (S "Visual Note: " ++ b.visual ++ '\n' :: (S "Duration: " ++ b.duration))))

/-- A completion text consisting of exactly three `HOOK N:` blocks. -/
def render3HookBlocks (b1 b2 b3 : HookBlock) : List Char :=
  renderHookBlock 1 b1 ++ '\n' :: (renderHookBlock 2 b2 ++ '\n' :: renderHookBlock 3 b3)

/-- Well-formedness of a `HOOK N:` block: each field is clean and does not contain
its own label (so `str.replace` removes only the label), and the text is not
quote-wrapped (so `strip` of quotes is the identity). -/
def wfHookBlock (b : HookBlock) : Bool :=
  cleanField b.type && !hasSub (S "Type:") b.type &&
    cleanField b.text && !hasSub (S "Text:") b.text &&
    (b.text.headD ' ' != quoteChar) && (b.text.getLastD ' ' != quoteChar) &&
    cleanField b.visual && !hasSub (S "Visual Note:") b.visual &&
    !hasSub (S "Visual:") b.visual &&
    cleanField b.duration && !hasSub (S "Duration:") b.duration

/-- The parsed dictionary a well-formed block should produce in `_parse_hooks`. -/
def toHookInfo (b : HookBlock) : HookInfo :=
  ⟨some b.type, some b.text, some b.visual, some b.duration⟩

/-- One well-formed `Option N:` block in the display format of
`_display_all_hooks`, the format consumed by `extract_hook_metadata`. -/
structure OptionBlock where
  type : List Char
  script : List Char
  visual : List Char
  duration : List Char
deriving DecidableEq, Repr

/-- The rendered text of an `Option N:` block. -/
def renderOptionBlock (n : Nat) (b : OptionBlock) : List Char :=
  S "Option " ++ natDigits n ++ S ": " ++ b.type ++ '\n' ::
    (S "📝 Script: " ++ b.script ++ '\n' ::
      (S "🎬 Visual: " ++ b.visual ++ '\n' :: (S "⏱️ Duration: " ++ b.duration ++ ['\n'])))

/-- A completion text consisting of exactly three `Option N:` blocks. -/
def render3OptionBlocks (b1 b2 b3 : OptionBlock) : List Char :=
  renderOptionBlock 1 b1 ++ renderOptionBlock 2 b2 ++ renderOptionBlock 3 b3

/-- Absence of a character in a field. -/
def noChar (c : Char) (f : List Char) : Bool := f.all (fun d => d != c)

/-- Well-formedness of an `Option N:` block: each field is clean, contains neither
the literal `Option` (so the block split finds exactly the three headers) nor any of
the three field-marker emoji (so each leftmost search finds its own marker), and the
script is non-empty and not quote-wrapped. -/
def wfOptionField (f : List Char) : Bool :=
  cleanField f && !hasSub (S "Option") f && noChar '📝' f && noChar '🎬' f && noChar '⏱' f

/-- Well-formedness of a whole `Option N:` block. -/
def wfOptionBlock (b : OptionBlock) : Bool :=
  wfOptionField b.type && wfOptionField b.script && wfOptionField b.visual &&
    wfOptionField b.duration &&
    (b.script.headD ' ' != quoteChar) && (b.script.getLastD ' ' != quoteChar)

/-- The parsed dictionary a well-formed block should produce in
`extract_hook_metadata`. -/
def toHookMeta (n : Nat) (b : OptionBlock) : HookMeta :=
  ⟨some n, some b.type, some b.script, some b.visual, some b.duration⟩

/-! ## Library lemmas -/

theorem startsW_append_self (p t : List Char) : startsW p (p ++ t) = true := by
  induction p with
  | nil => rfl
  | cons c q ih => simp [startsW, ih]

theorem startsW_refl (p : List Char) : startsW p p = true := by
  have h := startsW_append_self p []
  simpa using h

theorem startsW_length_le {p l : List Char} (h : startsW p l = true) : p.length ≤ l.length := by
  induction p generalizing l with
  | nil => simp
  | cons c q ih =>
    cases l with
    | nil => simp [startsW] at h
    | cons d t =>
      simp only [startsW, Bool.and_eq_true] at h
      have := ih h.2
      simpa using this

theorem startsW_iff {p l : List Char} : startsW p l = true ↔ ∃ t, l = p ++ t := by
  induction p generalizing l with
  | nil => simp [startsW]
  | cons c q ih =>
    cases l with
    | nil =>
      simp [startsW]
    | cons d t =>
      simp only [startsW, Bool.and_eq_true, beq_iff_eq, ih, List.cons_append]
      constructor
      · rintro ⟨rfl, u, rfl⟩
        exact ⟨u, rfl⟩
      · rintro ⟨u, hu⟩
        injection hu with hc ht
        exact ⟨hc.symm, u, ht⟩

theorem startsW_append_of_le (p a b : List Char) (h : p.length ≤ a.length) :
    startsW p (a ++ b) = startsW p a := by
  induction p generalizing a with
  | nil => simp [startsW]
  | cons c q ih =>
    cases a with
    | nil => simp at h
    | cons d t =>
      simp only [List.cons_append, startsW, List.append_eq]
      rw [ih t (by simpa using h)]

theorem startsW_antisymm {x p : List Char} (h1 : startsW x p = true) (h2 : p.length ≤ x.length) :
    x = p := by
  induction x generalizing p with
  | nil =>
    cases p with
    | nil => rfl
    | cons d t => simp at h2
  | cons c q ih =>
    cases p with
    | nil => simp [startsW] at h1
    | cons d t =>
      simp only [startsW, Bool.and_eq_true, beq_iff_eq] at h1
      have := ih h1.2 (by simpa using h2)
      simp [h1.1, this]

theorem startsW_append_cases (p x y : List Char) (h : startsW p (x ++ y) = true) :
    startsW p x = true ∨
      (startsW x p = true ∧ startsW (p.drop x.length) y = true) := by
  induction p generalizing x with
  | nil => left; rfl
  | cons c q ih =>
    cases x with
    | nil =>
      right
      exact ⟨rfl, by simpa using h⟩
    | cons d t =>
      simp only [List.cons_append, startsW, Bool.and_eq_true] at h
      rcases ih t h.2 with h1 | ⟨h1, h2⟩
      · left
        simp [startsW, h.1, h1]
      · right
        refine ⟨?_, ?_⟩
        · simp only [startsW, Bool.and_eq_true, beq_iff_eq]
          exact ⟨(beq_iff_eq.mp h.1).symm, h1⟩
        · simpa using h2

theorem hasSub_cons (pat : List Char) (c : Char) (t : List Char) :
    hasSub pat (c :: t) = (startsW pat (c :: t) || hasSub pat t) := rfl

theorem hasSub_append_false {pat a b : List Char}
    (ha : hasSub pat a = false) (hb : hasSub pat b = false)
    (hspan : ∀ k, 0 < k → k < pat.length → startsW (pat.drop k) b = false) :
    hasSub pat (a ++ b) = false := by
  induction a with
  | nil => simpa using hb
  | cons c t ih =>
    rw [hasSub_cons] at ha
    simp only [Bool.or_eq_false_iff] at ha
    have hrec := ih ha.2
    rw [List.cons_append, hasSub_cons]
    simp only [Bool.or_eq_false_iff]
    refine ⟨?_, hrec⟩
    cases hB : startsW pat (c :: (t ++ b)) with
    | false => rfl
    | true =>
    exfalso
    have hsw : startsW pat ((c :: t) ++ b) = true := by simpa using hB
    rcases startsW_append_cases pat (c :: t) b hsw with h1 | ⟨h1, h2⟩
    · rw [ha.1] at h1
      exact Bool.false_ne_true h1
    · have hle := startsW_length_le h1
      rcases Nat.lt_or_ge (c :: t).length pat.length with hlt | hge
      · have h4 := hspan (c :: t).length (by simp) hlt
        rw [h4] at h2
        exact Bool.false_ne_true h2
      · have heq := startsW_antisymm h1 hge
        rw [heq] at ha
        have hr := startsW_refl pat
        rw [ha.1] at hr
        exact Bool.false_ne_true hr

theorem noChar_not_mem {c : Char} {f : List Char} (h : noChar c f = true) : c ∉ f := by
  intro hmem
  have := List.all_eq_true.mp h c hmem
  simp at this

theorem startsW_drop_false_of_noChar {pat : List Char} (c : Char) (b : List Char)
    (hnl : noChar c pat = true) :
    ∀ k, 0 < k → k < pat.length → startsW (pat.drop k) (c :: b) = false := by
  intro k _ hk
  have hlen : (pat.drop k).length ≠ 0 := by
    simp only [List.length_drop]
    omega
  have hne0 : pat.drop k ≠ [] := by
    intro hn
    rw [hn] at hlen
    simp at hlen
  obtain ⟨e, q, hq⟩ := List.exists_cons_of_ne_nil hne0
  rw [hq]
  have hmem : e ∈ pat := by
    have : e ∈ pat.drop k := by simp [hq]
    exact List.mem_of_mem_drop this
  have hne : e ≠ c := by
    intro h
    exact noChar_not_mem hnl (h ▸ hmem)
  simp [startsW, hne]

theorem hasSub_append_false_nl {pat a b : List Char}
    (hnl : noChar '\n' pat = true) (ha : hasSub pat a = false)
    (hb : hasSub pat ('\n' :: b) = false) :
    hasSub pat (a ++ '\n' :: b) = false :=
  hasSub_append_false ha hb (startsW_drop_false_of_noChar '\n' b hnl)

theorem dropWhile_append_all {q : Char → Bool} {a : List Char} (b : List Char)
    (h : ∀ c ∈ a, q c = true) : (a ++ b).dropWhile q = b.dropWhile q := by
  induction a with
  | nil => rfl
  | cons c t ih =>
    have hc := h c (by simp)
    simp only [List.cons_append, List.dropWhile_cons, hc, if_true]
    exact ih fun d hd => h d (by simp [hd])

theorem dropWhile_append_not_all {q : Char → Bool} {a : List Char} (b : List Char)
    (h : ¬ ∀ c ∈ a, q c = true) : (a ++ b).dropWhile q = a.dropWhile q ++ b := by
  induction a with
  | nil => exact absurd (by simp) h
  | cons c t ih =>
    cases hc : q c with
    | true =>
      have ht : ¬ ∀ c ∈ t, q c = true := by
        intro hall
        exact h fun d hd => by
          rcases List.mem_cons.mp hd with rfl | hdt
          · exact hc
          · exact hall d hdt
      simp only [List.cons_append, List.dropWhile_cons, hc, if_true]
      exact ih ht
    | false =>
      simp [List.dropWhile_cons, hc]

theorem stripLead_cons_nonws {c : Char} (t : List Char) (h : isSpaceB c = false) :
    stripLead (c :: t) = c :: t := by
  simp [stripLead, List.dropWhile_cons, h]

theorem stripTrail_append_ws {la lb : List Char} (h : ∀ c ∈ lb, isSpaceB c = true) :
    stripTrail (la ++ lb) = stripTrail la := by
  unfold stripTrail
  rw [List.reverse_append, dropWhile_append_all la.reverse (fun c hc => h c (by
    simpa using hc))]

theorem stripTrail_append_nonws {la lb : List Char} (h : ¬ ∀ c ∈ lb, isSpaceB c = true) :
    stripTrail (la ++ lb) = la ++ stripTrail lb := by
  unfold stripTrail
  rw [List.reverse_append, dropWhile_append_not_all la.reverse (fun hall => h (fun c hc =>
    hall c (by simpa using hc)))]
  simp

theorem cleanField_parts {f : List Char} (h : cleanField f = true) :
    f ≠ [] ∧ (∀ c ∈ f, (c == '\n') = false) ∧ isSpaceB (f.headD ' ') = false ∧
      isSpaceB (f.getLastD ' ') = false := by
  unfold cleanField at h
  simp only [Bool.and_eq_true, Bool.not_eq_true'] at h
  obtain ⟨⟨⟨h1, h2⟩, h3⟩, h4⟩ := h
  refine ⟨?_, ?_, h3, h4⟩
  · intro hn
    rw [hn] at h1
    simp at h1
  · intro c hc
    rw [List.any_eq_false] at h2
    simpa using h2 c hc

theorem cleanField_no_nl {f : List Char} (h : cleanField f = true) : ∀ c ∈ f, c ≠ '\n' := by
  intro c hc
  have := (cleanField_parts h).2.1 c hc
  simpa using this

theorem stripTrail_eq_self_of_clean {f : List Char} (h : cleanField f = true) :
    stripTrail f = f := by
  obtain ⟨hne, _, _, hlast⟩ := cleanField_parts h
  have hf : f.dropLast ++ [f.getLast hne] = f := List.dropLast_append_getLast hne
  have hlast2 : isSpaceB (f.getLast hne) = false := by
    have hg : f.getLastD ' ' = f.getLast hne := by
      rw [List.getLastD_eq_getLast?, List.getLast?_eq_getLast f hne]
      rfl
    rw [hg] at hlast
    exact hlast
  calc stripTrail f = stripTrail (f.dropLast ++ [f.getLast hne]) := by rw [hf]
    _ = f.dropLast ++ stripTrail [f.getLast hne] := by
        refine stripTrail_append_nonws ?_
        intro hall
        have := hall (f.getLast hne) (by simp)
        rw [hlast2] at this
        exact Bool.false_ne_true this
    _ = f.dropLast ++ [f.getLast hne] := by
        simp [stripTrail, List.dropWhile_cons, hlast2]
    _ = f := hf

theorem pyStrip_eq_self_of_clean {f : List Char} (h : cleanField f = true) :
    pyStrip f = f := by
  obtain ⟨hne, _, hhead, _⟩ := cleanField_parts h
  obtain ⟨c, t, rfl⟩ := List.exists_cons_of_ne_nil hne
  have hh : isSpaceB c = false := by simpa [List.headD] using hhead
  unfold pyStrip
  rw [stripLead_cons_nonws t hh]
  exact stripTrail_eq_self_of_clean h

theorem pyStrip_cons_append_clean (c : Char) (lit t : List Char) (hc : isSpaceB c = false)
    (ht : cleanField t = true) : pyStrip ((c :: lit) ++ t) = (c :: lit) ++ t := by
  obtain ⟨hne, _, hhead, _⟩ := cleanField_parts ht
  obtain ⟨d, u, rfl⟩ := List.exists_cons_of_ne_nil hne
  have hd : isSpaceB d = false := by simpa [List.headD] using hhead
  unfold pyStrip
  rw [show ((c :: lit) ++ d :: u) = c :: (lit ++ d :: u) by simp]
  rw [stripLead_cons_nonws _ hc]
  rw [show (c :: (lit ++ d :: u)) = (c :: lit) ++ d :: u by simp]
  rw [stripTrail_append_nonws (fun hall => by
    have := hall d (by simp)
    rw [hd] at this
    exact Bool.false_ne_true this)]
  rw [show stripTrail (d :: u) = stripTrail ([] ++ d :: u) by simp]
  rw [show ([] : List Char) ++ d :: u = d :: u by simp] at *
  have := stripTrail_eq_self_of_clean ht
  rw [this]

theorem splitLines_no_nl {a : List Char} (h : ∀ c ∈ a, c ≠ '\n') : splitLines a = [a] := by
  induction a with
  | nil => rfl
  | cons c t ih =>
    have hc : (c == '\n') = false := by
      simpa using h c (by simp)
    rw [splitLines, hc]
    simp only [if_false, Bool.false_eq_true]
    rw [ih fun d hd => h d (by simp [hd])]

theorem splitLines_append {a : List Char} (b : List Char) (h : ∀ c ∈ a, c ≠ '\n') :
    splitLines (a ++ '\n' :: b) = a :: splitLines b := by
  induction a with
  | nil =>
    simp [splitLines]
  | cons c t ih =>
    have hc : (c == '\n') = false := by
      simpa using h c (by simp)
    rw [List.cons_append, splitLines, hc]
    simp only [if_false, Bool.false_eq_true]
    rw [ih fun d hd => h d (by simp [hd])]

theorem pyReplaceAux_no_occ {pat : List Char} (rep : List Char) (fuel : Nat) {l : List Char}
    (h : hasSub pat l = false) : pyReplaceAux pat rep fuel l = l := by
  induction fuel generalizing l with
  | zero => rfl
  | succ n ih =>
    cases l with
    | nil => rfl
    | cons c t =>
      rw [hasSub_cons] at h
      simp only [Bool.or_eq_false_iff] at h
      rw [pyReplaceAux, h.1]
      simp only [Bool.false_and, if_false, Bool.false_eq_true]
      rw [ih h.2]

theorem pyReplace_no_occ {pat l : List Char} (rep : List Char) (h : hasSub pat l = false) :
    pyReplace l pat rep = l := pyReplaceAux_no_occ rep l.length h

theorem pyReplace_pat_append (c : Char) (p' x rep : List Char)
    (h : hasSub (c :: p') x = false) : pyReplace ((c :: p') ++ x) (c :: p') rep = rep ++ x := by
  unfold pyReplace
  have hlen : ((c :: p') ++ x).length = (p'.length + x.length) + 1 := by
    simp [Nat.add_comm, Nat.add_assoc, Nat.add_left_comm]
  rw [hlen]
  rw [show ((c :: p') ++ x) = c :: (p' ++ x) by simp]
  rw [pyReplaceAux]
  have hsw : startsW (c :: p') (c :: (p' ++ x)) = true := by
    have := startsW_append_self (c :: p') x
    simpa using this
  rw [hsw]
  have hdrop : (c :: (p' ++ x)).drop (p'.length + 1) = x := by
    simp
  simp only [Bool.true_and, List.length_cons, if_true]
  rw [if_pos (by simp)]
  rw [hdrop, pyReplaceAux_no_occ rep _ h]

theorem endsW_append (p x : List Char) : endsW p (x ++ p) = true := by
  unfold endsW
  rw [List.reverse_append]
  exact startsW_append_self p.reverse x.reverse

theorem pyStrip_cons_ne_nil {c : Char} (t : List Char) (h : isSpaceB c = false) :
    pyStrip (c :: t) ≠ [] := by
  unfold pyStrip
  rw [stripLead_cons_nonws t h]
  intro hn
  unfold stripTrail at hn
  have : (c :: t).reverse.dropWhile isSpaceB = [] := by
    have := congrArg List.reverse hn
    simpa using this
  rw [List.dropWhile_eq_nil_iff] at this
  have hc := this c (by simp)
  rw [h] at hc
  exact Bool.false_ne_true hc

theorem pyLower_append (a b : List Char) : pyLower (a ++ b) = pyLower a ++ pyLower b := by
  simp [pyLower]

theorem pyStrip_lower_of_startsW {input : List Char} (p : List Char)
    (hsw : startsW p input = true) (hpl : pyLower p = p) (hpne : p ≠ [])
    (hphead : isSpaceB (p.headD 'x') = false) :
    (∃ u, pyStrip (pyLower input) = p ++ u) ∨ pyStrip (pyLower input) = stripTrail p := by
  obtain ⟨t, rfl⟩ := startsW_iff.mp hsw
  rw [pyLower_append, hpl]
  obtain ⟨c, q, rfl⟩ := List.exists_cons_of_ne_nil hpne
  have hc : isSpaceB c = false := by simpa [List.headD] using hphead
  unfold pyStrip
  rw [show ((c :: q) ++ pyLower t) = c :: (q ++ pyLower t) by simp]
  rw [stripLead_cons_nonws _ hc]
  rw [show (c :: (q ++ pyLower t)) = (c :: q) ++ pyLower t by simp]
  by_cases hws : ∀ d ∈ pyLower t, isSpaceB d = true
  · right
    rw [stripTrail_append_ws hws]
  · left
    rw [stripTrail_append_nonws hws]
    exact ⟨stripTrail (pyLower t), rfl⟩

theorem parse_none_of_excl {input : List Char}
    (h : startsW (S "draft:") (pyStrip (pyLower input)) = true ∨
         startsW (S "draft ") (pyStrip (pyLower input)) = true ∨
         startsW (S "enhance") (pyStrip (pyLower input)) = true ∨
         startsW (S "research:") (pyStrip (pyLower input)) = true ∨
         startsW (S "example:") (pyStrip (pyLower input)) = true) :
    parseOptionSelection input = none := by
  unfold parseOptionSelection
  rcases h with h | h | h | h | h <;> simp [h]

theorem parse_none_of_il {input il : List Char} (hil : pyStrip (pyLower input) = il)
    (hcore : (match patternScan il with
      | some n => some n
      | none => if il.length ≤ 20 then wordScan il else none) = none) :
    parseOptionSelection input = none := by
  unfold parseOptionSelection
  rw [hil]
  dsimp only
  split
  · rfl
  · exact hcore

theorem parse_none_of_long {input : List Char} (h : 50 < input.length) :
    parseOptionSelection input = none := by
  unfold parseOptionSelection
  have hd : decide (input.length > 50) = true := by simpa using h
  simp [hd]

/-- C2: the option-selection parser maps each of the inputs listed by the spec to
selection 2; it returns no selection for any input starting with one of the command
markers (the source checks them on the lowered, stripped input, which preserves
these literal starts); and any input longer than 50 characters yields no selection. -/
theorem C2_optionSelection_parsing :
    (parseOptionSelection (S "option 2") = some 2 ∧
     parseOptionSelection (S "2") = some 2 ∧
     parseOptionSelection (S "second") = some 2 ∧
     parseOptionSelection (S "use option 2") = some 2 ∧
     parseOptionSelection (S "#2") = some 2) ∧
    (∀ input : List Char,
      (startsW (S "draft:") input = true ∨ startsW (S "draft ") input = true ∨
       startsW (S "enhance") input = true ∨ startsW (S "research:") input = true ∨
       startsW (S "example:") input = true) →
      parseOptionSelection input = none) ∧
    (∀ input : List Char, 50 < input.length → parseOptionSelection input = none) := by
  refine ⟨⟨by decide, by decide, by decide, by decide, by decide⟩, ?_, ?_⟩
  · intro input h
    rcases h with h | h | h | h | h
    · rcases pyStrip_lower_of_startsW (S "draft:") h (by decide) (by decide) (by decide) with
        ⟨u, hu⟩ | hu
      · exact parse_none_of_excl (Or.inl (by rw [hu]; exact startsW_append_self _ u))
      · exact parse_none_of_excl (Or.inl (by rw [hu]; try decide))
    · rcases pyStrip_lower_of_startsW (S "draft ") h (by decide) (by decide) (by decide) with
        ⟨u, hu⟩ | hu
      · exact parse_none_of_excl (Or.inr (Or.inl (by rw [hu]; exact startsW_append_self _ u)))
      · exact parse_none_of_il
          (hu.trans (show stripTrail (S "draft ") = S "draft" by decide)) (by decide)
    · rcases pyStrip_lower_of_startsW (S "enhance") h (by decide) (by decide) (by decide) with
        ⟨u, hu⟩ | hu
      · exact parse_none_of_excl (Or.inr (Or.inr (Or.inl (by
          rw [hu]; exact startsW_append_self _ u))))
      · exact parse_none_of_excl (Or.inr (Or.inr (Or.inl (by rw [hu]; try decide))))
    · rcases pyStrip_lower_of_startsW (S "research:") h (by decide) (by decide) (by decide) with
        ⟨u, hu⟩ | hu
      · exact parse_none_of_excl (Or.inr (Or.inr (Or.inr (Or.inl (by
          rw [hu]; exact startsW_append_self _ u)))))
      · exact parse_none_of_excl (Or.inr (Or.inr (Or.inr (Or.inl (by rw [hu]; try decide)))))
    · rcases pyStrip_lower_of_startsW (S "example:") h (by decide) (by decide) (by decide) with
        ⟨u, hu⟩ | hu
      · exact parse_none_of_excl (Or.inr (Or.inr (Or.inr (Or.inr (by
          rw [hu]; exact startsW_append_self _ u)))))
      · exact parse_none_of_excl (Or.inr (Or.inr (Or.inr (Or.inr (by rw [hu]; try decide)))))
  · intro input h
    exact parse_none_of_long h

/-- Witness for `C2_optionSelection_parsing` at concrete inputs: the spec example
with the `draft:` marker, and a 53-character input containing `option 2`. -/
theorem C2_optionSelection_parsing_witness :
    parseOptionSelection (S "draft: I" ++ apos :: S "ll pick option 2 for my intro") = none ∧
    parseOptionSelection (S "i think that maybe we should go with option 2 here ok") = none := by
  constructor
  · exact C2_optionSelection_parsing.2.1 _ (Or.inl (by decide))
  · exact C2_optionSelection_parsing.2.2 _ (by decide)

theorem findNumPair_none {l : List Char} (h : ∀ c ∈ l, isDigitB c = false) :
    findNumPair l = none := by
  induction l with
  | nil => rfl
  | cons c t ih =>
    have hnp : numPairAt (c :: t) = none := by
      unfold numPairAt
      dsimp only
      rw [h c (by simp)]
      simp
    unfold findNumPair
    rw [hnp]
    exact ih fun d hd => h d (by simp [hd])

/-- C4: the per-act durations are 20% / 60% / 20% of the numeric midpoint of the
total duration.  For the total `10 minutes` the acts get 2, 6 and 2 minutes
(rendered `2.0` / `6.0` / `6.0` by the one-decimal format); for `5-7 minutes` the
midpoint 6 gives 1.2 / 3.6 / 1.2 minutes; and whenever the total mentions seconds
the result is rendered in seconds (including the no-number fallback). -/
theorem C4_act_duration_split :
    (calculateActDuration (S "10 minutes") 1 = S "2.0 minutes" ∧
     calculateActDuration (S "10 minutes") 2 = S "6.0 minutes" ∧
     calculateActDuration (S "10 minutes") 3 = S "2.0 minutes" ∧
     (actDurationVal (S "10 minutes") 1).map Frac.toRat = some 2 ∧
     (actDurationVal (S "10 minutes") 2).map Frac.toRat = some 6 ∧
     (actDurationVal (S "10 minutes") 3).map Frac.toRat = some 2) ∧
    (calculateActDuration (S "5-7 minutes") 1 = S "1.2 minutes" ∧
     calculateActDuration (S "5-7 minutes") 2 = S "3.6 minutes" ∧
     calculateActDuration (S "5-7 minutes") 3 = S "1.2 minutes" ∧
     (actDurationVal (S "5-7 minutes") 1).map Frac.toRat = some (6 / 5) ∧
     (actDurationVal (S "5-7 minutes") 2).map Frac.toRat = some (18 / 5) ∧
     (actDurationVal (S "5-7 minutes") 3).map Frac.toRat = some (6 / 5)) ∧
    (calculateActDuration (S "45 seconds") 1 = S "9 seconds" ∧
     calculateActDuration (S "45 seconds") 2 = S "27 seconds" ∧
     calculateActDuration (S "45 seconds") 3 = S "9 seconds") ∧
    (∀ (total : List Char) (act : ℤ), hasSub (S "second") total = true →
      endsW (S " seconds") (calculateActDuration total act) = true) := by
  refine ⟨⟨by decide, by decide, by decide, ?_, ?_, ?_⟩,
    ⟨by decide, by decide, by decide, ?_, ?_, ?_⟩, ⟨by decide, by decide, by decide⟩, ?_⟩
  · rw [show actDurationVal (S "10 minutes") 1 = some ⟨20, 10⟩ by decide]
    simp [Frac.toRat]
    norm_num
  · rw [show actDurationVal (S "10 minutes") 2 = some ⟨60, 10⟩ by decide]
    simp [Frac.toRat]
    norm_num
  · rw [show actDurationVal (S "10 minutes") 3 = some ⟨20, 10⟩ by decide]
    simp [Frac.toRat]
    norm_num
  · rw [show actDurationVal (S "5-7 minutes") 1 = some ⟨12, 10⟩ by decide]
    simp [Frac.toRat]
    norm_num
  · rw [show actDurationVal (S "5-7 minutes") 2 = some ⟨36, 10⟩ by decide]
    simp [Frac.toRat]
    norm_num
  · rw [show actDurationVal (S "5-7 minutes") 3 = some ⟨12, 10⟩ by decide]
    simp [Frac.toRat]
    norm_num
  · intro total act h
    unfold calculateActDuration
    cases hf : findNumPair total with
    | none => dsimp only; decide
    | some p =>
      obtain ⟨mn, mx⟩ := p
      dsimp only
      rw [h]
      simp only [if_true]
      exact endsW_append _ _

/-- Witness for `C4_act_duration_split` at a concrete seconds input. -/
theorem C4_act_duration_split_witness :
    endsW (S " seconds") (calculateActDuration (S "90 seconds") 2) = true :=
  C4_act_duration_split.2.2.2 (S "90 seconds") 2 (by decide)

/-- Counterexample to C9 as stated: the computation is not exception-free over all
(string, int) inputs. On a 309-digit duration number the Python source raises
`OverflowError` at `(min_val + max_val) / 2` (integer division result too large
for a float); the exception-aware embedding returns `none` there. -/
theorem C9_counterexample :
    calculateActDurationChecked (S "999999999999999999999999999999999999999999999999999999999999999999999999999999999999999999999999999999999999999999999999999999999999999999999999999999999999999999999999999999999999999999999999999999999999999999999999999999999999999999999999999999999999999999999999999999999999999999999999999999999999999999999 minutes") 1 = none := by
  decide

/-- C9 (amended): with no digit anywhere in the total duration the function
returns the fixed fallback `a few seconds` without reaching any arithmetic, an act
number outside 1..3 uses the default proportion 0.33 (shown on the `10 minutes`
input, where it renders `3.3 minutes`), and the only failing path is the float
overflow of `(min_val + max_val) / 2`: a call raises exactly when the matched
duration numbers satisfy `avgOverflows`, and on every non-overflowing match it
returns the string of the value-level model. -/
theorem C9_act_duration_amended :
    (∀ (total : List Char) (act : ℤ), (∀ c ∈ total, isDigitB c = false) →
      calculateActDurationChecked total act = some (S "a few seconds")) ∧
    (∀ act : ℤ, act ≠ 1 → act ≠ 2 → act ≠ 3 →
      actProportion act = ⟨33, 100⟩ ∧
      calculateActDurationChecked (S "10 minutes") act = some (S "3.3 minutes")) ∧
    (∀ (total : List Char) (act : ℤ) (minV maxV : Nat),
      findNumPair total = some (minV, maxV) →
      (calculateActDurationChecked total act = none ↔ avgOverflows minV maxV = true)) ∧
    (∀ (total : List Char) (act : ℤ) (minV maxV : Nat),
      findNumPair total = some (minV, maxV) → avgOverflows minV maxV = false →
      calculateActDurationChecked total act = some (calculateActDuration total act)) := by
  refine ⟨?_, ?_, ?_, ?_⟩
  · intro total act h
    unfold calculateActDurationChecked
    rw [findNumPair_none h]
  · intro act h1 h2 h3
    have hp : actProportion act = ⟨33, 100⟩ := by
      unfold actProportion
      rw [if_neg h1, if_neg h2, if_neg h3]
    refine ⟨hp, ?_⟩
    unfold calculateActDurationChecked
    rw [show findNumPair (S "10 minutes") = some (10, 10) by decide]
    dsimp only
    rw [show avgOverflows 10 10 = false from by decide]
    simp only [Bool.false_eq_true, if_false]
    rw [hp]
    decide
  · intro total act minV maxV h
    unfold calculateActDurationChecked
    rw [h]
    dsimp only
    cases hov : avgOverflows minV maxV
    · simp
    · simp
  · intro total act minV maxV h hov
    unfold calculateActDurationChecked calculateActDuration
    rw [h]
    dsimp only
    rw [hov]
    simp only [Bool.false_eq_true, if_false]

/-- Witness for `C9_act_duration_amended`: a digit-free input, act number 7, and
the `10 minutes` match, which does not overflow and agrees with the value-level
model. -/
theorem C9_act_duration_amended_witness :
    calculateActDurationChecked (S "short video") 2 = some (S "a few seconds") ∧
    calculateActDurationChecked (S "10 minutes") 7 = some (S "3.3 minutes") ∧
    (calculateActDurationChecked (S "10 minutes") 1 = none ↔
      avgOverflows 10 10 = true) ∧
    calculateActDurationChecked (S "10 minutes") 1 =
      some (calculateActDuration (S "10 minutes") 1) := by
  refine ⟨C9_act_duration_amended.1 (S "short video") 2 (by decide),
    (C9_act_duration_amended.2.1 7 (by decide) (by decide) (by decide)).2,
    C9_act_duration_amended.2.2.1 (S "10 minutes") 1 10 10 (by decide),
    C9_act_duration_amended.2.2.2 (S "10 minutes") 1 10 10 (by decide) (by decide)⟩

theorem isDigitB_le {c : Char} (h : isDigitB c = true) : '0' ≤ c ∧ c ≤ '9' := by
  unfold isDigitB at h
  simp only [Bool.and_eq_true, decide_eq_true_eq] at h
  exact h

theorem beq_false_of_lt_zero {c d : Char} (h : isDigitB c = true) (hd : ¬ '0' ≤ d) :
    (c == d) = false := by
  rw [beq_eq_false_iff_ne]
  rintro rfl
  exact hd (isDigitB_le h).1

theorem beq_false_of_gt_nine {c d : Char} (h : isDigitB c = true) (hd : ¬ d ≤ '9') :
    (d == c) = false := by
  rw [beq_eq_false_iff_ne]
  rintro rfl
  exact hd (isDigitB_le h).2

theorem isSpaceB_of_digit {c : Char} (h : isDigitB c = true) : isSpaceB c = false := by
  unfold isSpaceB
  simp only [Bool.or_eq_false_iff]
  refine ⟨⟨⟨⟨⟨?_, ?_⟩, ?_⟩, ?_⟩, ?_⟩, ?_⟩ <;>
    exact beq_false_of_lt_zero h (by decide)

theorem wsRun_digit {c : Char} (t : List Char) (h : isDigitB c = true) :
    wsRun (c :: t) = 0 := by
  unfold wsRun
  rw [List.takeWhile_cons, isSpaceB_of_digit h]
  rfl

theorem secPatAt_digit {c : Char} (t : List Char) (h : isDigitB c = true) :
    secPatAt (c :: t) = none := by
  unfold secPatAt
  rw [wsRun_digit t h]
  have hs : ('s' == c) = false := beq_false_of_gt_nine h (by decide)
  simp [startsW, hs]

theorem minPatAt_digit {c : Char} (t : List Char) (h : isDigitB c = true) :
    minPatAt (c :: t) = none := by
  unfold minPatAt
  rw [wsRun_digit t h]
  have hm : ('m' == c) = false := beq_false_of_gt_nine h (by decide)
  simp [startsW, hm]

theorem normalizeDuration_head {c : Char} (r : List Char) (h : isDigitB c = true) :
    ∃ x, normalizeDuration (c :: r) = c :: x := by
  unfold normalizeDuration
  have h1 : pySubst secPatAt (S " seconds") (c :: r) =
      c :: pySubAux secPatAt (S " seconds") r.length r := by
    unfold pySubst
    rw [show (c :: r).length = r.length + 1 by simp]
    rw [pySubAux, secPatAt_digit r h]
  have h2 : pySubst minPatAt (S " minutes") (c :: r) =
      c :: pySubAux minPatAt (S " minutes") r.length r := by
    unfold pySubst
    rw [show (c :: r).length = r.length + 1 by simp]
    rw [pySubAux, minPatAt_digit r h]
  split
  · exact ⟨_, h1⟩
  · exact ⟨_, h2⟩

theorem takeDigits_cons {c : Char} (t : List Char) (h : isDigitB c = true) :
    takeDigits (c :: t) = c :: t.takeWhile isDigitB := by
  simp [takeDigits, List.takeWhile_cons, h]

theorem durationUnitAt_some {l g : List Char} (h : durationUnitAt l = some g) :
    ∃ c r, g = c :: r ∧ isDigitB c = true := by
  cases l with
  | nil => simp [durationUnitAt] at h
  | cons c t =>
    unfold durationUnitAt at h
    dsimp only at h
    by_cases hd : isDigitB c = true
    · rw [if_pos hd, takeDigits_cons t hd] at h
      split at h
      · cases h
        exact ⟨c, _, rfl, hd⟩
      · simp at h
    · rw [if_neg hd] at h
      simp at h

theorem searchDurationUnit_some {l g : List Char} (h : searchDurationUnit l = some g) :
    ∃ c r, g = c :: r ∧ isDigitB c = true := by
  induction l with
  | nil => simp [searchDurationUnit] at h
  | cons c t ih =>
    unfold searchDurationUnit at h
    cases hda : durationUnitAt (c :: t) with
    | some g0 =>
      rw [hda] at h
      cases h
      exact durationUnitAt_some hda
    | none =>
      rw [hda] at h
      exact ih h

theorem bareNumMatch_some {l d1 : List Char} {od2 : Option (List Char)}
    (h : bareNumMatch l = some (d1, od2)) : ∃ c r, d1 = c :: r ∧ isDigitB c = true := by
  cases l with
  | nil => simp [bareNumMatch] at h
  | cons c t =>
    unfold bareNumMatch at h
    dsimp only at h
    by_cases hd : isDigitB c = true
    · rw [if_pos hd, takeDigits_cons t hd] at h
      split at h
      · cases h
        exact ⟨c, _, rfl, hd⟩
      · simp at h
    · rw [if_neg hd] at h
      simp at h

theorem platformDefault_ne_nil (platform : List Char) : platformDefault platform ≠ [] := by
  unfold platformDefault
  split_ifs <;> decide

theorem extractDuration_ne_nil (platform input : List Char) :
    extractDuration platform input ≠ [] := by
  unfold extractDuration
  split
  · exact platformDefault_ne_nil platform
  · cases hsd : searchDurationUnit (pyLower input) with
    | some g =>
      obtain ⟨c, r, rfl, hd⟩ := searchDurationUnit_some hsd
      obtain ⟨x, hx⟩ := normalizeDuration_head r hd
      dsimp only
      rw [hx]
      exact pyStrip_cons_ne_nil x (isSpaceB_of_digit hd)
    | none =>
      dsimp only
      cases hbm : bareNumMatch (pyStrip input) with
      | some p =>
        obtain ⟨d1, od2⟩ := p
        obtain ⟨c, r, rfl, _⟩ := bareNumMatch_some hbm
        cases od2 <;> simp
      | none => exact platformDefault_ne_nil platform

/-- C10: handling a timing preference always terminates the awaiting-timing state in
one step: for every platform, user input and starting metadata, the handler stores a
non-empty duration string in `video_duration` and sets `awaiting_timing` to
`False`. -/
theorem C10_timing_preference_terminates (platform input : List Char) (md : TimingMeta) :
    (handleTimingPreference platform input md).1.awaiting_timing = some false ∧
    (handleTimingPreference platform input md).1.video_duration =
      some (extractDuration platform input) ∧
    extractDuration platform input ≠ [] :=
  ⟨rfl, rfl, extractDuration_ne_nil platform input⟩

theorem foldl_generateMoreHooks (ms : List (List HookInfo)) (s : ScriptComponent) :
    (ms.foldl (fun acc b => generateMoreHooks b acc) s).all_options =
      s.all_options ++ ms.flatten := by
  induction ms generalizing s with
  | nil => simp
  | cons b ms ih =>
    rw [List.foldl_cons, ih]
    simp [generateMoreHooks]

/-- C5: generating more options is strictly additive on the accumulated option
list.  After one generate call (whose batch replaces `all_options`) followed by any
sequence of generate-more calls (each appending its batch), the stored options are
exactly the concatenation of all batches, the length is the sum of the batch
lengths, and each generate-more call leaves the previously stored entries unchanged
and in their original order (they remain the prefix of the new list). -/
theorem C5_generate_more_additive (c : ScriptComponent) (init : List HookInfo)
    (mores : List (List HookInfo)) :
    ((mores.foldl (fun acc b => generateMoreHooks b acc)
        (generateInitialHooks init c)).all_options = init ++ mores.flatten) ∧
    ((mores.foldl (fun acc b => generateMoreHooks b acc)
        (generateInitialHooks init c)).all_options.length =
      init.length + (mores.map List.length).sum) ∧
    (∀ (s : ScriptComponent) (b : List HookInfo),
      (generateMoreHooks b s).all_options.take s.all_options.length = s.all_options) := by
  have h1 := foldl_generateMoreHooks mores (generateInitialHooks init c)
  have h2 : (generateInitialHooks init c).all_options = init := rfl
  rw [h2] at h1
  refine ⟨h1, ?_, ?_⟩
  · rw [h1]
    simp [List.length_flatten]
  · intro s b
    simp [generateMoreHooks, List.take_left]

/-- C6 counterexample: selecting option 1 from a freshly generated CTA list writes
the option text into `cta.content` and finalizes the component, but appends no
`cta_selected` event — the conversation history is unchanged, contradicting the
claim that a corresponding `*_selected` event is appended for every component
kind. -/
theorem C6_counterexample :
    (handleOptionSelection 1
        ⟨none, none, none,
         [.ctasGenerated [⟨some (S "CTA text"), some (S "Primary"), none, none⟩]]⟩).2 =
      .selectedCta 1 ∧
    (handleOptionSelection 1
        ⟨none, none, none,
         [.ctasGenerated [⟨some (S "CTA text"), some (S "Primary"), none, none⟩]]⟩).1.cta =
      some { newComponent (S "cta") with content := S "Primary", finalized := true } ∧
    (handleOptionSelection 1
        ⟨none, none, none,
         [.ctasGenerated [⟨some (S "CTA text"), some (S "Primary"), none, none⟩]]⟩).1.conversation_history =
      [.ctasGenerated [⟨some (S "CTA text"), some (S "Primary"), none, none⟩]] := by
  decide

/-- C6 (amended): resolving selection `n` looks up the most recent
`hooks/ctas/stories_generated` event; with no such event, an empty option list, or
`n` beyond the list, it responds with the no-recent-options guidance and leaves the
state unchanged; otherwise it writes the selected option text into the
corresponding component, finalizes it, and appends a `hook_selected` event only in
the hook case — cta and story selections append no event. -/
theorem C6_option_selection_amended :
    (∀ (s : CLIState) (n : Nat), findRecentOptions s.conversation_history = none →
      handleOptionSelection n s = (s, .noRecentOptions)) ∧
    (∀ (s : CLIState) (n : Nat) (kind : OptKind) (opts : List OptDict),
      findRecentOptions s.conversation_history = some (kind, opts) →
      (opts = [] ∨ opts.length < n) →
      handleOptionSelection n s = (s, .noRecentOptions)) ∧
    (∀ (s : CLIState) (n : Nat) (opts : List OptDict),
      findRecentOptions s.conversation_history = some (.hookK, opts) →
      opts ≠ [] → n ≤ opts.length →
      (handleOptionSelection n s).2 = .selectedHook n ∧
      (handleOptionSelection n s).1.hook.map ScriptComponent.content =
        some ((opts.getD (n - 1) ⟨none, none, none, none⟩).text.getD []) ∧
      (handleOptionSelection n s).1.hook.map ScriptComponent.finalized = some true ∧
      (handleOptionSelection n s).1.conversation_history =
        s.conversation_history ++ [.hookSelected n] ∧
      (handleOptionSelection n s).1.story = s.story ∧
      (handleOptionSelection n s).1.cta = s.cta) ∧
    (∀ (s : CLIState) (n : Nat) (opts : List OptDict),
      findRecentOptions s.conversation_history = some (.ctaK, opts) →
      opts ≠ [] → n ≤ opts.length →
      (handleOptionSelection n s).2 = .selectedCta n ∧
      (handleOptionSelection n s).1.cta.map ScriptComponent.content =
        some (let sel := opts.getD (n - 1) ⟨none, none, none, none⟩
              sel.primary_text.getD (sel.text.getD [])) ∧
      (handleOptionSelection n s).1.cta.map ScriptComponent.finalized = some true ∧
      (handleOptionSelection n s).1.conversation_history = s.conversation_history ∧
      (handleOptionSelection n s).1.story = s.story ∧
      (handleOptionSelection n s).1.hook = s.hook) ∧
    (∀ (s : CLIState) (n : Nat) (opts : List OptDict),
      findRecentOptions s.conversation_history = some (.storyK, opts) →
      opts ≠ [] → n ≤ opts.length →
      (handleOptionSelection n s).2 = .selectedStory n ∧
      (handleOptionSelection n s).1.story.map ScriptComponent.content =
        some (let sel := opts.getD (n - 1) ⟨none, none, none, none⟩
              sel.structureField.getD (sel.content.getD [])) ∧
      (handleOptionSelection n s).1.story.map ScriptComponent.finalized = some true ∧
      (handleOptionSelection n s).1.conversation_history = s.conversation_history ∧
      (handleOptionSelection n s).1.hook = s.hook ∧
      (handleOptionSelection n s).1.cta = s.cta) := by
  refine ⟨?_, ?_, ?_, ?_, ?_⟩
  · intro s n h
    unfold handleOptionSelection
    rw [h]
  · intro s n kind opts h h2
    unfold handleOptionSelection
    rw [h]
    have hcond : (!opts.isEmpty && decide (n ≤ opts.length)) = false := by
      rcases h2 with rfl | hlt
      · simp
      · have : ¬ n ≤ opts.length := by omega
        simp [this]
    dsimp only
    rw [hcond]
    simp only [Bool.false_eq_true, if_false]
  · intro s n opts h hne hle
    have hemp : opts.isEmpty = false := by
      cases opts with
      | nil => exact absurd rfl hne
      | cons a t => rfl
    unfold handleOptionSelection
    rw [h]
    dsimp only
    rw [hemp]
    simp only [Bool.not_false, Bool.true_and, decide_eq_true_eq, if_pos hle]
    simp [generateMoreHooks]
  · intro s n opts h hne hle
    have hemp : opts.isEmpty = false := by
      cases opts with
      | nil => exact absurd rfl hne
      | cons a t => rfl
    unfold handleOptionSelection
    rw [h]
    dsimp only
    rw [hemp]
    simp only [Bool.not_false, Bool.true_and, decide_eq_true_eq, if_pos hle]
    simp
  · intro s n opts h hne hle
    have hemp : opts.isEmpty = false := by
      cases opts with
      | nil => exact absurd rfl hne
      | cons a t => rfl
    unfold handleOptionSelection
    rw [h]
    dsimp only
    rw [hemp]
    simp only [Bool.not_false, Bool.true_and, decide_eq_true_eq, if_pos hle]
    simp

/-- Witness for `C6_option_selection_amended` at concrete states. -/
theorem C6_option_selection_amended_witness :
    handleOptionSelection 2 ⟨none, none, none, []⟩ =
      (⟨none, none, none, []⟩, .noRecentOptions) ∧
    (handleOptionSelection 1
        ⟨none, none, none,
         [.hooksGenerated [⟨some (S "H1"), none, none, none⟩]]⟩).1.conversation_history =
      [.hooksGenerated [⟨some (S "H1"), none, none, none⟩], .hookSelected 1] := by
  constructor
  · exact C6_option_selection_amended.1 ⟨none, none, none, []⟩ 2 (by decide)
  · exact (C6_option_selection_amended.2.2.1 ⟨none, none, none,
      [.hooksGenerated [⟨some (S "H1"), none, none, none⟩]]⟩ 1
      [⟨some (S "H1"), none, none, none⟩] (by decide) (by decide) (by decide)).2.2.2.1

/-- C7 counterexample: with no staged enhanced draft, the input `keep original` is
not rejected with an error; it falls through the command chain and is treated as
raw draft content, overwriting the stored act draft — contradicting the claim that
either command errors and changes no state when no draft is staged. -/
theorem C7_counterexample :
    (processActDevelopment (S "LLM")
        { newComponent (S "story") with
          metadata := { emptyMeta with acts_content := some [(1, S "My original draft")] } }
        (S "keep original")).2 = .draftReviewed (S "keep original") ∧
    (processActDevelopment (S "LLM")
        { newComponent (S "story") with
          metadata := { emptyMeta with acts_content := some [(1, S "My original draft")] } }
        (S "keep original")).1.metadata.acts_content = some [(1, S "keep original")] := by
  decide

theorem processAct_use_enhanced {llm : List Char} {story : ScriptComponent} {ed : List Char}
    (hed : story.metadata.enhanced_draft = some ed) (hne : ed ≠ [])
    (hst : pyStrip ed ≠ []) {acts : List (ℤ × List Char)}
    (hacts : story.metadata.acts_content = some acts) :
    processActDevelopment llm story (S "use enhanced") =
      ({ story with metadata := { story.metadata with
          acts_content := some (dictSet acts (story.metadata.current_act.getD 1) ed),
          enhanced_draft := none } },
       .usedEnhanced ed) := by
  unfold processActDevelopment
  rw [hacts]
  simp only [Option.isNone_some, Bool.false_eq_true, if_false]
  rw [hed]
  rw [show pyStrip (pyLower (S "use enhanced")) = S "use enhanced" from by decide]
  rw [if_neg (by decide)]
  rw [if_neg (by decide)]
  have hT : optStrTruthy (some ed) = true := by
    simp [optStrTruthy, List.isEmpty_iff, hne]
  rw [hT]
  rw [show hasSub (S "use enhanced") (S "use enhanced") = true from by decide]
  simp only [Bool.not_true, Bool.and_false, Bool.false_eq_true, if_false, Bool.true_and,
    Bool.and_true, if_true]
  rw [if_neg (by simp [List.isEmpty_iff, hst])]
  rw [hacts]
  rfl

theorem processAct_keep_original {llm : List Char} {story : ScriptComponent} {ed : List Char}
    (hed : story.metadata.enhanced_draft = some ed) (hne : ed ≠ [])
    {acts : List (ℤ × List Char)} (hacts : story.metadata.acts_content = some acts) :
    processActDevelopment llm story (S "keep original") =
      ({ story with metadata := { story.metadata with enhanced_draft := none } },
       .keptOriginal (dictGet acts (story.metadata.current_act.getD 1) [])) := by
  unfold processActDevelopment
  rw [hacts]
  simp only [Option.isNone_some, Bool.false_eq_true, if_false]
  rw [hed]
  rw [show pyStrip (pyLower (S "keep original")) = S "keep original" from by decide]
  rw [if_neg (by decide)]
  rw [if_neg (by decide)]
  have hT : optStrTruthy (some ed) = true := by
    simp [optStrTruthy, List.isEmpty_iff, hne]
  rw [hT]
  rw [show hasSub (S "use enhanced") (S "keep original") = false from by decide]
  rw [show hasSub (S "keep original") (S "keep original") = true from by decide]
  simp only [Bool.false_and, Bool.and_false, Bool.false_eq_true, if_false, Bool.true_and,
    Bool.and_true, if_true]
  rw [hacts]
  rfl

theorem processAct_use_enhanced_err {llm : List Char} {story : ScriptComponent}
    (hT : optStrTruthy story.metadata.enhanced_draft = false)
    {acts : List (ℤ × List Char)} (hacts : story.metadata.acts_content = some acts) :
    processActDevelopment llm story (S "use enhanced") = (story, .errNoEnhanced) := by
  unfold processActDevelopment
  rw [hacts]
  simp only [Option.isNone_some, Bool.false_eq_true, if_false]
  rw [show pyStrip (pyLower (S "use enhanced")) = S "use enhanced" from by decide]
  rw [if_neg (by decide)]
  rw [if_neg (by decide)]
  rw [hT]
  rw [show hasSub (S "use enhanced") (S "use enhanced") = true from by decide]
  simp only [Bool.not_false, Bool.true_and, Bool.and_true, if_true]

theorem processAct_keep_original_fallthrough {llm : List Char} {story : ScriptComponent}
    (hT : optStrTruthy story.metadata.enhanced_draft = false)
    {acts : List (ℤ × List Char)} (hacts : story.metadata.acts_content = some acts) :
    processActDevelopment llm story (S "keep original") =
      reviewDraft story (S "keep original") (story.metadata.current_act.getD 1) false := by
  unfold processActDevelopment
  rw [hacts]
  simp only [Option.isNone_some, Bool.false_eq_true, if_false]
  rw [show pyStrip (pyLower (S "keep original")) = S "keep original" from by decide]
  rw [if_neg (by decide)]
  rw [if_neg (by decide)]
  rw [hT]
  rw [show hasSub (S "use enhanced") (S "keep original") = false from by decide]
  rw [show hasSub (S "keep original") (S "keep original") = true from by decide]
  simp only [Bool.false_and, Bool.and_false, Bool.and_true, Bool.false_eq_true, if_false,
    Bool.not_false]
  rw [if_neg (by decide)]
  rw [if_neg (by decide)]
  rw [if_neg (by decide)]
  rw [if_neg (by decide)]
  rw [if_neg (by decide)]
  rfl

/-- C7 (amended): with a staged non-whitespace enhanced draft, `use enhanced`
writes it into the acts content for the current act and unstages it, and
`keep original` discards the staged draft leaving the acts content unchanged; with
no staged draft, `use enhanced` produces the explicit no-enhanced-version error and
changes no state, while `keep original` is not specially handled and falls through
the command chain to the default branch, where it is treated as raw draft content
(`review_draft` stores the literal text `keep original` as the act draft). -/
theorem C7_use_enhanced_keep_original_amended :
    (∀ (llm : List Char) (story : ScriptComponent) (ed : List Char)
        (acts : List (ℤ × List Char)),
      story.metadata.enhanced_draft = some ed → ed ≠ [] → pyStrip ed ≠ [] →
      story.metadata.acts_content = some acts →
      processActDevelopment llm story (S "use enhanced") =
        ({ story with metadata := { story.metadata with
            acts_content := some (dictSet acts (story.metadata.current_act.getD 1) ed),
            enhanced_draft := none } },
         .usedEnhanced ed)) ∧
    (∀ (llm : List Char) (story : ScriptComponent) (ed : List Char)
        (acts : List (ℤ × List Char)),
      story.metadata.enhanced_draft = some ed → ed ≠ [] →
      story.metadata.acts_content = some acts →
      processActDevelopment llm story (S "keep original") =
        ({ story with metadata := { story.metadata with enhanced_draft := none } },
         .keptOriginal (dictGet acts (story.metadata.current_act.getD 1) []))) ∧
    (∀ (llm : List Char) (story : ScriptComponent) (acts : List (ℤ × List Char)),
      optStrTruthy story.metadata.enhanced_draft = false →
      story.metadata.acts_content = some acts →
      processActDevelopment llm story (S "use enhanced") = (story, .errNoEnhanced)) ∧
    (∀ (llm : List Char) (story : ScriptComponent) (acts : List (ℤ × List Char)),
      optStrTruthy story.metadata.enhanced_draft = false →
      story.metadata.acts_content = some acts →
      processActDevelopment llm story (S "keep original") =
        reviewDraft story (S "keep original") (story.metadata.current_act.getD 1) false) := by
  refine ⟨?_, ?_, ?_, ?_⟩
  · intro llm story ed acts hed hne hst hacts
    exact processAct_use_enhanced hed hne hst hacts
  · intro llm story ed acts hed hne hacts
    exact processAct_keep_original hed hne hacts
  · intro llm story acts hT hacts
    exact processAct_use_enhanced_err hT hacts
  · intro llm story acts hT hacts
    exact processAct_keep_original_fallthrough hT hacts

/-- Witness for `C7_use_enhanced_keep_original_amended` at a concrete state with a
staged draft (for `use enhanced`) and one without (for `use enhanced` erroring). -/
theorem C7_use_enhanced_keep_original_amended_witness :
    processActDevelopment (S "L")
        { newComponent (S "story") with
          metadata := ⟨none, none, none, some [(1, S "Old draft")], some (S "Better draft"), none⟩ }
        (S "use enhanced") =
      ({ newComponent (S "story") with
          metadata := ⟨none, none, none, some [(1, S "Better draft")], none, none⟩ },
       .usedEnhanced (S "Better draft")) ∧
    processActDevelopment (S "L")
        { newComponent (S "story") with
          metadata := ⟨none, none, none, some [(1, S "Old draft")], none, none⟩ }
        (S "use enhanced") =
      ({ newComponent (S "story") with
          metadata := ⟨none, none, none, some [(1, S "Old draft")], none, none⟩ },
       .errNoEnhanced) := by
  constructor
  · have h := C7_use_enhanced_keep_original_amended.1 (S "L")
      { newComponent (S "story") with
        metadata := ⟨none, none, none, some [(1, S "Old draft")], some (S "Better draft"), none⟩ }
      (S "Better draft") [(1, S "Old draft")] rfl (by decide) (by decide) rfl
    rw [h]
    decide
  · exact C7_use_enhanced_keep_original_amended.2.2.1 (S "L")
      { newComponent (S "story") with
        metadata := ⟨none, none, none, some [(1, S "Old draft")], none, none⟩ }
      [(1, S "Old draft")] rfl rfl

theorem rangeOr_bounds {r k : Option Nat} {n : Nat}
    (hk : ∀ m, k = some m → 1 ≤ m ∧ m ≤ 3) (h : rangeOr r k = some n) : 1 ≤ n ∧ n ≤ 3 := by
  unfold rangeOr at h
  cases r with
  | none =>
    dsimp only at h
    exact hk n h
  | some m =>
    dsimp only at h
    by_cases hm : 1 ≤ m ∧ m ≤ 3
    · rw [if_pos hm] at h
      cases h
      exact hm
    · rw [if_neg hm] at h
      exact hk n h

theorem patternScan_bounds {il : List Char} {n : Nat} (h : patternScan il = some n) :
    1 ≤ n ∧ n ≤ 3 := by
  unfold patternScan at h
  refine rangeOr_bounds (fun m hm => ?_) h
  refine rangeOr_bounds (fun m hm => ?_) hm
  refine rangeOr_bounds (fun m hm => ?_) hm
  refine rangeOr_bounds (fun m hm => ?_) hm
  refine rangeOr_bounds (fun m hm => ?_) hm
  refine rangeOr_bounds (fun m hm => ?_) hm
  refine rangeOr_bounds (fun m hm => ?_) hm
  refine rangeOr_bounds (fun m hm => ?_) hm
  refine rangeOr_bounds (fun m hm => ?_) hm
  refine rangeOr_bounds (fun m hm => ?_) hm
  simp at hm

theorem wordScan_bounds {il : List Char} {n : Nat} (h : wordScan il = some n) :
    1 ≤ n ∧ n ≤ 3 := by
  unfold wordScan at h
  split_ifs at h <;> cases h <;> omega

theorem parseOptionSelection_bounds {input : List Char} {n : Nat}
    (h : parseOptionSelection input = some n) : 1 ≤ n ∧ n ≤ 3 := by
  unfold parseOptionSelection at h
  dsimp only at h
  split at h
  · exact absurd h (by simp)
  · cases hps : patternScan (pyStrip (pyLower input)) with
    | some m =>
      rw [hps] at h
      cases h
      exact patternScan_bounds hps
    | none =>
      rw [hps] at h
      by_cases hlen : (pyStrip (pyLower input)).length ≤ 20
      · rw [if_pos hlen] at h
        exact wordScan_bounds h
      · rw [if_neg hlen] at h
        exact absurd h (by simp)

theorem parse_eq_none_of_lower_const {input lit : List Char} (hl : pyLower input = lit)
    (hcore : (match patternScan (pyStrip lit) with
      | some n => some n
      | none => if (pyStrip lit).length ≤ 20 then wordScan (pyStrip lit) else none) = none) :
    parseOptionSelection input = none := parse_none_of_il (by rw [hl]) hcore

/-- C8 counterexample: option-selection detection does not run first in the loop —
the awaiting-mood check precedes it.  In a state whose story is in
`act_development` mode but whose last history event is `awaiting_mood_response`,
the input `2` resolves as a selection by the parser yet is routed to the mood
handler, not handled as an option selection. -/
theorem C8_counterexample :
    parseOptionSelection (S "2") = some 2 ∧
    route
        ⟨none,
         some { newComponent (S "story") with
                metadata := ⟨some (S "act_development"), none, none, none, none, none⟩ },
         none, [.awaitingMoodResponse]⟩ (S "2") = .moodResponseR ∧
    route
        ⟨none,
         some { newComponent (S "story") with
                metadata := ⟨some (S "act_development"), none, none, none, none, none⟩ },
         none, [.awaitingMoodResponse]⟩ (S "2") ≠ .optionSelectionR 2 := by
  decide

set_option maxHeartbeats 2000000 in
/-- C8 (amended): option-selection detection runs before act-development
delegation, but after the awaiting-mood and awaiting-timing checks.  For every
state that is not awaiting a mood response or a timing preference, an input the
option-selection parser resolves is routed to the option-selection handler; and for
every state whatsoever, such an input is never routed to the act-development
sub-workflow. -/
theorem C8_option_selection_before_act_development :
    (∀ (s : CLIState) (input : List Char) (n : Nat),
      parseOptionSelection input = some n →
      (match s.conversation_history.getLast? with
        | some .awaitingMoodResponse => true
        | _ => false) = false →
      (match s.story with
        | some st => st.metadata.awaiting_timing == some true
        | none => false) = false →
      route s input = .optionSelectionR n) ∧
    (∀ (s : CLIState) (input : List Char),
      optTruthyNat (parseOptionSelection input) = true →
      route s input ≠ .actDevelopmentR) := by
  constructor
  · intro s input n hp hm ht
    have hnone : ∀ lit : List Char, pyLower input = lit →
        (match patternScan (pyStrip lit) with
          | some k => some k
          | none => if (pyStrip lit).length ≤ 20 then wordScan (pyStrip lit) else none) =
          none → False := by
      intro lit hl hcore
      have hx := parse_eq_none_of_lower_const hl hcore
      rw [hp] at hx
      exact Option.noConfusion hx
    have hbounds := parseOptionSelection_bounds hp
    unfold route
    rw [if_neg (fun h => hnone _ h (by decide))]
    rw [if_neg (fun h => hnone _ h (by decide))]
    rw [if_neg (fun h => hnone _ h (by decide))]
    rw [if_neg (fun h => hnone _ h (by decide))]
    rw [if_neg (fun h => hnone _ h (by decide))]
    rw [if_neg (fun h => hnone _ h (by decide))]
    rw [if_neg (fun h => Or.elim h (fun h1 => hnone _ h1 (by decide))
      (fun h2 => hnone _ h2 (by decide)))]
    rw [if_neg (fun h => Or.elim h (fun h1 => hnone _ h1 (by decide))
      (fun h2 => Or.elim h2 (fun h3 => hnone _ h3 (by decide))
        (fun h4 => hnone _ h4 (by decide))))]
    rw [if_neg (by rw [hm]; simp)]
    rw [if_neg (by rw [ht]; simp)]
    rw [hp]
    have h0 : optTruthyNat (some n) = true := by
      have : n ≠ 0 := by omega
      simp [optTruthyNat, this]
    rw [if_pos h0]
    rfl
  · intro s input h
    unfold route
    by_cases h1 : pyLower input = S "exit"
    · rw [if_pos h1]
      exact fun hc => Route.noConfusion hc
    rw [if_neg h1]
    by_cases h2 : pyLower input = S "help"
    · rw [if_pos h2]
      exact fun hc => Route.noConfusion hc
    rw [if_neg h2]
    by_cases h3 : pyLower input = S "status"
    · rw [if_pos h3]
      exact fun hc => Route.noConfusion hc
    rw [if_neg h3]
    by_cases h4 : pyLower input = S "save"
    · rw [if_pos h4]
      exact fun hc => Route.noConfusion hc
    rw [if_neg h4]
    by_cases h5 : pyLower input = S "export"
    · rw [if_pos h5]
      exact fun hc => Route.noConfusion hc
    rw [if_neg h5]
    by_cases h6 : pyLower input = S "list"
    · rw [if_pos h6]
      exact fun hc => Route.noConfusion hc
    rw [if_neg h6]
    by_cases h7 : pyLower input = S "hook" ∨ pyLower input = S "hooks"
    · rw [if_pos h7]
      exact fun hc => Route.noConfusion hc
    rw [if_neg h7]
    by_cases h8 : pyLower input = S "story" ∨ pyLower input = S "narrative" ∨
        pyLower input = S "structure"
    · rw [if_pos h8]
      exact fun hc => Route.noConfusion hc
    rw [if_neg h8]
    by_cases h9 : (match s.conversation_history.getLast? with
      | some .awaitingMoodResponse => true
      | _ => false) = true
    · rw [if_pos h9]
      exact fun hc => Route.noConfusion hc
    rw [if_neg h9]
    by_cases h10 : (match s.story with
      | some st => st.metadata.awaiting_timing == some true
      | none => false) = true
    · rw [if_pos h10]
      exact fun hc => Route.noConfusion hc
    rw [if_neg h10]
    rw [if_pos h]
    exact fun hc => Route.noConfusion hc

/-- Witness for `C8_option_selection_before_act_development` at a concrete
act-development state with a pending hook-options event. -/
theorem C8_option_selection_before_act_development_witness :
    route
        ⟨none,
         some { newComponent (S "story") with
                metadata := ⟨some (S "act_development"), none, none, none, none, none⟩ },
         none, [.hooksGenerated [⟨some (S "H1"), none, none, none⟩]]⟩ (S "2") =
      .optionSelectionR 2 ∧
    route
        ⟨none,
         some { newComponent (S "story") with
                metadata := ⟨some (S "act_development"), none, none, none, none, none⟩ },
         none, [.hooksGenerated [⟨some (S "H1"), none, none, none⟩]]⟩ (S "2") ≠
      .actDevelopmentR := by
  constructor
  · exact C8_option_selection_before_act_development.1
      ⟨none,
       some { newComponent (S "story") with
              metadata := ⟨some (S "act_development"), none, none, none, none, none⟩ },
       none, [.hooksGenerated [⟨some (S "H1"), none, none, none⟩]]⟩ (S "2") 2
      (by decide) (by decide) (by decide)
  · exact C8_option_selection_before_act_development.2
      ⟨none,
       some { newComponent (S "story") with
              metadata := ⟨some (S "act_development"), none, none, none, none, none⟩ },
       none, [.hooksGenerated [⟨some (S "H1"), none, none, none⟩]]⟩ (S "2") (by decide)

theorem take3_pos {α : Type} {x : List α} (h : x ≠ []) : 1 ≤ (x.take 3).length := by
  cases x with
  | nil => exact absurd rfl h
  | cons a t => simp

theorem padDefault_ne_nil (resp : List Char) (hooks : List HookInfo) :
    padDefault resp hooks ≠ [] := by
  unfold padDefault
  split
  · simp
  next hemp =>
    intro hnil
    rw [hnil] at hemp
    exact hemp rfl

/-- C1: the hook option parser (`HookSpecialistAgent._parse_hooks`, the parser with
the final synthesized-placeholder fallback) returns at most 3 options for every
completion text, and at least 1 option for every non-empty completion text. -/
theorem C1_hook_parsing_bounds (hooks_response : List Char) :
    (parseHooks hooks_response).length ≤ 3 ∧
    (hooks_response ≠ [] → 1 ≤ (parseHooks hooks_response).length) := by
  unfold parseHooks
  dsimp only
  split
  next h => exact ⟨by omega, fun _ => by omega⟩
  next h =>
    refine ⟨?_, fun _ => ?_⟩
    · rw [List.length_take]
      omega
    · apply take3_pos
      apply padDefault_ne_nil

/-- Witness for `C1_hook_parsing_bounds` at a one-character completion text. -/
theorem C1_hook_parsing_bounds_witness :
    1 ≤ (parseHooks (S "x")).length ∧ (parseHooks (S "x")).length ≤ 3 :=
  ⟨(C1_hook_parsing_bounds (S "x")).2 (by decide), (C1_hook_parsing_bounds (S "x")).1⟩

theorem startsW_cons_head_false {c d : Char} (p t : List Char) (h : (c == d) = false) :
    startsW (c :: p) (d :: t) = false := by
  simp [startsW, h]

theorem pyStrip_space_cons_clean {t : List Char} (ht : cleanField t = true) :
    pyStrip (' ' :: t) = t := by
  obtain ⟨hne, _, hhead, _⟩ := cleanField_parts ht
  obtain ⟨d, u, rfl⟩ := List.exists_cons_of_ne_nil hne
  have hd : isSpaceB d = false := by simpa [List.headD] using hhead
  unfold pyStrip
  rw [show stripLead (' ' :: d :: u) = stripLead (d :: u) by
    simp [stripLead, List.dropWhile_cons, show isSpaceB ' ' = true from rfl]]
  rw [stripLead_cons_nonws u hd]
  exact stripTrail_eq_self_of_clean ht

theorem stripQuotes_eq_self {f : List Char} (hne : f ≠ [])
    (hh : (f.headD ' ' == quoteChar) = false) (hl : (f.getLastD ' ' == quoteChar) = false) :
    stripQuotes f = f := by
  obtain ⟨c, t, rfl⟩ := List.exists_cons_of_ne_nil hne
  have hc : (c == quoteChar) = false := by simpa [List.headD] using hh
  unfold stripQuotes
  rw [show (c :: t).dropWhile (· == quoteChar) = c :: t by
    simp [List.dropWhile_cons, hc]]
  have hgl : ((c :: t).getLast (by simp) == quoteChar) = false := by
    have hg : (c :: t).getLastD ' ' = (c :: t).getLast (by simp) := by
      rw [List.getLastD_eq_getLast?, List.getLast?_eq_getLast (c :: t) (by simp)]
      rfl
    rw [hg] at hl
    exact hl
  have hf : (c :: t).dropLast ++ [(c :: t).getLast (by simp)] = c :: t :=
    List.dropLast_append_getLast (by simp)
  calc ((c :: t).reverse.dropWhile (· == quoteChar)).reverse
      = (((c :: t).dropLast ++ [(c :: t).getLast (by simp)]).reverse.dropWhile
          (· == quoteChar)).reverse := by rw [hf]
    _ = c :: t := by
        rw [List.reverse_append]
        simp only [List.reverse_cons, List.reverse_nil, List.nil_append,
          List.singleton_append, List.dropWhile_cons, hgl]
        simp only [Bool.false_eq_true, if_false]
        rw [show ((c :: t).getLast (by simp) :: (c :: t).dropLast.reverse).reverse =
          ((c :: t).dropLast ++ [(c :: t).getLast (by simp)] : List Char) by
            simp [List.reverse_cons]]
        exact hf

theorem no_nl_append {lit f : List Char} (hlit : ∀ c ∈ lit, c ≠ '\n')
    (hf : ∀ c ∈ f, c ≠ '\n') : ∀ c ∈ lit ++ f, c ≠ '\n' := by
  intro c hc
  rcases List.mem_append.mp hc with h | h
  · exact hlit c h
  · exact hf c h

theorem splitLines_append2 (a b r : List Char)
    (ha : ∀ x ∈ a, x ≠ '\n') (hb : ∀ x ∈ b, x ≠ '\n') :
    splitLines (a ++ (b ++ '\n' :: r)) = (a ++ b) :: splitLines r := by
  rw [show a ++ (b ++ '\n' :: r) = (a ++ b) ++ '\n' :: r by simp [List.append_assoc]]
  exact splitLines_append r (no_nl_append ha hb)

theorem splitLines_append3 (a b c r : List Char)
    (ha : ∀ x ∈ a, x ≠ '\n') (hb : ∀ x ∈ b, x ≠ '\n') (hc : ∀ x ∈ c, x ≠ '\n') :
    splitLines (a ++ (b ++ (c ++ '\n' :: r))) = (a ++ (b ++ c)) :: splitLines r := by
  rw [show a ++ (b ++ (c ++ '\n' :: r)) = (a ++ (b ++ c)) ++ '\n' :: r by
    simp [List.append_assoc]]
  exact splitLines_append r (no_nl_append ha (no_nl_append hb hc))

theorem splitLines_append_last (a b : List Char)
    (ha : ∀ x ∈ a, x ≠ '\n') (hb : ∀ x ∈ b, x ≠ '\n') :
    splitLines (a ++ b) = [a ++ b] := splitLines_no_nl (no_nl_append ha hb)

theorem procLine_hdr (st : List HookInfo × HookInfo × Bool) (hdr : List Char)
    (h1 : pyStrip hdr = hdr)
    (h2 : (startsW (S "HOOK") hdr && hasSub (S ":") hdr) = true) :
    procLine st hdr =
      (if hookNonempty st.2.1 && st.2.1.text.isSome then st.1 ++ [st.2.1] else st.1,
       emptyHook, true) := by
  unfold procLine
  dsimp only
  rw [h1, h2]
  simp only [if_true]

theorem procLine_type (st : List HookInfo × HookInfo × Bool) (t : List Char)
    (ht : cleanField t = true) (hno : hasSub (S "Type:") t = false) (hin : st.2.2 = true) :
    procLine st (S "Type: " ++ t) = (st.1, { st.2.1 with type := some t }, true) := by
  unfold procLine
  dsimp only
  have hs : pyStrip (S "Type: " ++ t) = S "Type: " ++ t :=
    pyStrip_cons_append_clean 'T' (S "ype: ") t (by decide) ht
  rw [hs, hin]
  have hA : startsW (S "HOOK") (S "Type: " ++ t) = false := by
    rw [startsW_append_of_le _ _ _ (by decide)]
    decide
  have hTy : startsW (S "Type:") (S "Type: " ++ t) = true := by
    rw [startsW_append_of_le _ _ _ (by decide)]
    decide
  simp only [hA, Bool.false_and, Bool.false_eq_true, if_false, if_true, hTy]
  have hsw : startsW (S "Type:") (' ' :: t) = false :=
    startsW_cons_head_false (S "ype:") t (by decide)
  have hocc : hasSub (S "Type:") (' ' :: t) = false := by
    rw [hasSub_cons, hsw, hno]
    rfl
  have hrep : pyReplace (S "Type: " ++ t) (S "Type:") [] = [] ++ (' ' :: t) :=
    pyReplace_pat_append 'T' (S "ype:") (' ' :: t) [] hocc
  rw [hrep]
  rw [show ([] : List Char) ++ (' ' :: t) = ' ' :: t from rfl]
  rw [pyStrip_space_cons_clean ht]

theorem procLine_text (st : List HookInfo × HookInfo × Bool) (t : List Char)
    (ht : cleanField t = true) (hno : hasSub (S "Text:") t = false)
    (hq1 : (t.headD ' ' == quoteChar) = false) (hq2 : (t.getLastD ' ' == quoteChar) = false)
    (hin : st.2.2 = true) :
    procLine st (S "Text: " ++ t) = (st.1, { st.2.1 with text := some t }, true) := by
  unfold procLine
  dsimp only
  have hs : pyStrip (S "Text: " ++ t) = S "Text: " ++ t :=
    pyStrip_cons_append_clean 'T' (S "ext: ") t (by decide) ht
  rw [hs, hin]
  have hA : startsW (S "HOOK") (S "Text: " ++ t) = false := by
    rw [startsW_append_of_le _ _ _ (by decide)]
    decide
  have hB : startsW (S "Type:") (S "Text: " ++ t) = false := by
    rw [startsW_append_of_le _ _ _ (by decide)]
    decide
  have hC : startsW (S "Text:") (S "Text: " ++ t) = true := by
    rw [startsW_append_of_le _ _ _ (by decide)]
    decide
  simp only [hA, hB, Bool.false_and, Bool.false_eq_true, if_false, if_true, hC]
  have hsw : startsW (S "Text:") (' ' :: t) = false :=
    startsW_cons_head_false (S "ext:") t (by decide)
  have hocc : hasSub (S "Text:") (' ' :: t) = false := by
    rw [hasSub_cons, hsw, hno]
    rfl
  have hrep : pyReplace (S "Text: " ++ t) (S "Text:") [] = [] ++ (' ' :: t) :=
    pyReplace_pat_append 'T' (S "ext:") (' ' :: t) [] hocc
  rw [hrep]
  rw [show ([] : List Char) ++ (' ' :: t) = ' ' :: t from rfl]
  rw [pyStrip_space_cons_clean ht]
  rw [stripQuotes_eq_self (cleanField_parts ht).1 hq1 hq2]

theorem procLine_visual (st : List HookInfo × HookInfo × Bool) (v : List Char)
    (hv : cleanField v = true) (hno1 : hasSub (S "Visual Note:") v = false)
    (hno2 : hasSub (S "Visual:") v = false) (hin : st.2.2 = true) :
    procLine st (S "Visual Note: " ++ v) = (st.1, { st.2.1 with visual := some v }, true) := by
  unfold procLine
  dsimp only
  have hs : pyStrip (S "Visual Note: " ++ v) = S "Visual Note: " ++ v :=
    pyStrip_cons_append_clean 'V' (S "isual Note: ") v (by decide) hv
  rw [hs, hin]
  have hA : startsW (S "HOOK") (S "Visual Note: " ++ v) = false := by
    rw [startsW_append_of_le _ _ _ (by decide)]
    decide
  have hB : startsW (S "Type:") (S "Visual Note: " ++ v) = false := by
    rw [startsW_append_of_le _ _ _ (by decide)]
    decide
  have hC : startsW (S "Text:") (S "Visual Note: " ++ v) = false := by
    rw [startsW_append_of_le _ _ _ (by decide)]
    decide
  have hD : startsW (S "Visual Note:") (S "Visual Note: " ++ v) = true := by
    rw [startsW_append_of_le _ _ _ (by decide)]
    decide
  simp only [hA, hB, hC, hD, Bool.false_and, Bool.false_eq_true, if_false, if_true,
    Bool.true_or]
  have hsw1 : startsW (S "Visual Note:") (' ' :: v) = false :=
    startsW_cons_head_false (S "isual Note:") v (by decide)
  have hocc1 : hasSub (S "Visual Note:") (' ' :: v) = false := by
    rw [hasSub_cons, hsw1, hno1]
    rfl
  have hrep1 : pyReplace (S "Visual Note: " ++ v) (S "Visual Note:") [] = [] ++ (' ' :: v) :=
    pyReplace_pat_append 'V' (S "isual Note:") (' ' :: v) [] hocc1
  rw [hrep1]
  rw [show ([] : List Char) ++ (' ' :: v) = ' ' :: v from rfl]
  have hsw2 : startsW (S "Visual:") (' ' :: v) = false :=
    startsW_cons_head_false (S "isual:") v (by decide)
  have hocc2 : hasSub (S "Visual:") (' ' :: v) = false := by
    rw [hasSub_cons, hsw2, hno2]
    rfl
  rw [pyReplace_no_occ [] hocc2]
  rw [pyStrip_space_cons_clean hv]

theorem procLine_duration (st : List HookInfo × HookInfo × Bool) (d : List Char)
    (hd : cleanField d = true) (hno : hasSub (S "Duration:") d = false) (hin : st.2.2 = true) :
    procLine st (S "Duration: " ++ d) =
      (st.1, { st.2.1 with duration := some d }, true) := by
  unfold procLine
  dsimp only
  have hs : pyStrip (S "Duration: " ++ d) = S "Duration: " ++ d :=
    pyStrip_cons_append_clean 'D' (S "uration: ") d (by decide) hd
  rw [hs, hin]
  have hA : startsW (S "HOOK") (S "Duration: " ++ d) = false := by
    rw [startsW_append_of_le _ _ _ (by decide)]
    decide
  have hB : startsW (S "Type:") (S "Duration: " ++ d) = false := by
    rw [startsW_append_of_le _ _ _ (by decide)]
    decide
  have hC : startsW (S "Text:") (S "Duration: " ++ d) = false := by
    rw [startsW_append_of_le _ _ _ (by decide)]
    decide
  have hD1 : startsW (S "Visual Note:") (S "Duration: " ++ d) = false :=
    startsW_cons_head_false (S "isual Note:") (S "uration: " ++ d) (by decide)
  have hD2 : startsW (S "Visual:") (S "Duration: " ++ d) = false := by
    rw [startsW_append_of_le _ _ _ (by decide)]
    decide
  have hE : startsW (S "Duration:") (S "Duration: " ++ d) = true := by
    rw [startsW_append_of_le _ _ _ (by decide)]
    decide
  simp only [hA, hB, hC, hD1, hD2, hE, Bool.false_and, Bool.false_eq_true, Bool.false_or,
    if_false, if_true]
  have hsw : startsW (S "Duration:") (' ' :: d) = false :=
    startsW_cons_head_false (S "uration:") d (by decide)
  have hocc : hasSub (S "Duration:") (' ' :: d) = false := by
    rw [hasSub_cons, hsw, hno]
    rfl
  have hrep : pyReplace (S "Duration: " ++ d) (S "Duration:") [] = [] ++ (' ' :: d) :=
    pyReplace_pat_append 'D' (S "uration:") (' ' :: d) [] hocc
  rw [hrep]
  rw [show ([] : List Char) ++ (' ' :: d) = ' ' :: d from rfl]
  rw [pyStrip_space_cons_clean hd]

theorem wfHookBlock_parts {b : HookBlock} (h : wfHookBlock b = true) :
    cleanField b.type = true ∧ hasSub (S "Type:") b.type = false ∧
    cleanField b.text = true ∧ hasSub (S "Text:") b.text = false ∧
    (b.text.headD ' ' == quoteChar) = false ∧ (b.text.getLastD ' ' == quoteChar) = false ∧
    cleanField b.visual = true ∧ hasSub (S "Visual Note:") b.visual = false ∧
    hasSub (S "Visual:") b.visual = false ∧
    cleanField b.duration = true ∧ hasSub (S "Duration:") b.duration = false := by
  unfold wfHookBlock at h
  simp only [Bool.and_eq_true, Bool.not_eq_true', bne, Bool.not_not] at h
  obtain ⟨⟨⟨⟨⟨⟨⟨⟨⟨⟨h1, h2⟩, h3⟩, h4⟩, h5⟩, h6⟩, h7⟩, h8⟩, h9⟩, h10⟩, h11⟩ := h
  exact ⟨h1, h2, h3, h4, by simpa using h5, by simpa using h6, h7, h8, h9, h10, h11⟩

theorem parseHooks_render3 (b1 b2 b3 : HookBlock)
    (h1 : wfHookBlock b1 = true) (h2 : wfHookBlock b2 = true) (h3 : wfHookBlock b3 = true) :
    parseHooks (render3HookBlocks b1 b2 b3) =
      [toHookInfo b1, toHookInfo b2, toHookInfo b3] := by
  obtain ⟨c1t, n1t, c1x, n1x, q1a, q1b, c1v, n1v, m1v, c1d, n1d⟩ := wfHookBlock_parts h1
  obtain ⟨c2t, n2t, c2x, n2x, q2a, q2b, c2v, n2v, m2v, c2d, n2d⟩ := wfHookBlock_parts h2
  obtain ⟨c3t, n3t, c3x, n3x, q3a, q3b, c3v, n3v, m3v, c3d, n3d⟩ := wfHookBlock_parts h3
  have hsplit : splitLines (render3HookBlocks b1 b2 b3) =
      [S "HOOK " ++ (natDigits 1 ++ S ":"),
       S "Type: " ++ b1.type, S "Text: " ++ b1.text, S "Visual Note: " ++ b1.visual,
       S "Duration: " ++ b1.duration,
       S "HOOK " ++ (natDigits 2 ++ S ":"),
       S "Type: " ++ b2.type, S "Text: " ++ b2.text, S "Visual Note: " ++ b2.visual,
       S "Duration: " ++ b2.duration,
       S "HOOK " ++ (natDigits 3 ++ S ":"),
       S "Type: " ++ b3.type, S "Text: " ++ b3.text, S "Visual Note: " ++ b3.visual,
       S "Duration: " ++ b3.duration] := by
    unfold render3HookBlocks renderHookBlock
    simp only [List.append_assoc, List.cons_append]
    rw [splitLines_append3 (S "HOOK ") (natDigits 1) (S ":") _ (by decide) (by decide)
      (by decide)]
    rw [splitLines_append2 (S "Type: ") b1.type _ (by decide) (cleanField_no_nl c1t)]
    rw [splitLines_append2 (S "Text: ") b1.text _ (by decide) (cleanField_no_nl c1x)]
    rw [splitLines_append2 (S "Visual Note: ") b1.visual _ (by decide) (cleanField_no_nl c1v)]
    rw [splitLines_append2 (S "Duration: ") b1.duration _ (by decide) (cleanField_no_nl c1d)]
    rw [splitLines_append3 (S "HOOK ") (natDigits 2) (S ":") _ (by decide) (by decide)
      (by decide)]
    rw [splitLines_append2 (S "Type: ") b2.type _ (by decide) (cleanField_no_nl c2t)]
    rw [splitLines_append2 (S "Text: ") b2.text _ (by decide) (cleanField_no_nl c2x)]
    rw [splitLines_append2 (S "Visual Note: ") b2.visual _ (by decide) (cleanField_no_nl c2v)]
    rw [splitLines_append2 (S "Duration: ") b2.duration _ (by decide) (cleanField_no_nl c2d)]
    rw [splitLines_append3 (S "HOOK ") (natDigits 3) (S ":") _ (by decide) (by decide)
      (by decide)]
    rw [splitLines_append2 (S "Type: ") b3.type _ (by decide) (cleanField_no_nl c3t)]
    rw [splitLines_append2 (S "Text: ") b3.text _ (by decide) (cleanField_no_nl c3x)]
    rw [splitLines_append2 (S "Visual Note: ") b3.visual _ (by decide) (cleanField_no_nl c3v)]
    rw [splitLines_append_last (S "Duration: ") b3.duration (by decide)
      (cleanField_no_nl c3d)]
  have s1 : procLine ([], emptyHook, false) (S "HOOK " ++ (natDigits 1 ++ S ":")) =
      ([], emptyHook, true) := by decide
  have s2 : procLine ([], emptyHook, true) (S "Type: " ++ b1.type) =
      ([], ⟨some b1.type, none, none, none⟩, true) :=
    procLine_type ([], emptyHook, true) b1.type c1t n1t rfl
  have s3 : procLine ([], ⟨some b1.type, none, none, none⟩, true) (S "Text: " ++ b1.text) =
      ([], ⟨some b1.type, some b1.text, none, none⟩, true) :=
    procLine_text ([], ⟨some b1.type, none, none, none⟩, true) b1.text c1x n1x q1a q1b rfl
  have s4 : procLine ([], ⟨some b1.type, some b1.text, none, none⟩, true)
      (S "Visual Note: " ++ b1.visual) =
      ([], ⟨some b1.type, some b1.text, some b1.visual, none⟩, true) :=
    procLine_visual ([], ⟨some b1.type, some b1.text, none, none⟩, true) b1.visual
      c1v n1v m1v rfl
  have s5 : procLine ([], ⟨some b1.type, some b1.text, some b1.visual, none⟩, true)
      (S "Duration: " ++ b1.duration) =
      ([], ⟨some b1.type, some b1.text, some b1.visual, some b1.duration⟩, true) :=
    procLine_duration ([], ⟨some b1.type, some b1.text, some b1.visual, none⟩, true)
      b1.duration c1d n1d rfl
  have s6 : procLine
      ([], ⟨some b1.type, some b1.text, some b1.visual, some b1.duration⟩, true)
      (S "HOOK " ++ (natDigits 2 ++ S ":")) =
      ([⟨some b1.type, some b1.text, some b1.visual, some b1.duration⟩], emptyHook, true) :=
    (procLine_hdr ([], ⟨some b1.type, some b1.text, some b1.visual, some b1.duration⟩, true)
      (S "HOOK " ++ (natDigits 2 ++ S ":")) (by decide) (by decide)).trans
      (by simp [hookNonempty])
  have s7 : procLine
      ([⟨some b1.type, some b1.text, some b1.visual, some b1.duration⟩], emptyHook, true)
      (S "Type: " ++ b2.type) =
      ([⟨some b1.type, some b1.text, some b1.visual, some b1.duration⟩],
       ⟨some b2.type, none, none, none⟩, true) :=
    procLine_type _ b2.type c2t n2t rfl
  have s8 : procLine
      ([⟨some b1.type, some b1.text, some b1.visual, some b1.duration⟩],
       ⟨some b2.type, none, none, none⟩, true) (S "Text: " ++ b2.text) =
      ([⟨some b1.type, some b1.text, some b1.visual, some b1.duration⟩],
       ⟨some b2.type, some b2.text, none, none⟩, true) :=
    procLine_text _ b2.text c2x n2x q2a q2b rfl
  have s9 : procLine
      ([⟨some b1.type, some b1.text, some b1.visual, some b1.duration⟩],
       ⟨some b2.type, some b2.text, none, none⟩, true) (S "Visual Note: " ++ b2.visual) =
      ([⟨some b1.type, some b1.text, some b1.visual, some b1.duration⟩],
       ⟨some b2.type, some b2.text, some b2.visual, none⟩, true) :=
    procLine_visual _ b2.visual c2v n2v m2v rfl
  have s10 : procLine
      ([⟨some b1.type, some b1.text, some b1.visual, some b1.duration⟩],
       ⟨some b2.type, some b2.text, some b2.visual, none⟩, true) (S "Duration: " ++ b2.duration) =
      ([⟨some b1.type, some b1.text, some b1.visual, some b1.duration⟩],
       ⟨some b2.type, some b2.text, some b2.visual, some b2.duration⟩, true) :=
    procLine_duration _ b2.duration c2d n2d rfl
  have s11 : procLine
      ([⟨some b1.type, some b1.text, some b1.visual, some b1.duration⟩],
       ⟨some b2.type, some b2.text, some b2.visual, some b2.duration⟩, true)
      (S "HOOK " ++ (natDigits 3 ++ S ":")) =
      ([⟨some b1.type, some b1.text, some b1.visual, some b1.duration⟩,
        ⟨some b2.type, some b2.text, some b2.visual, some b2.duration⟩], emptyHook, true) :=
    (procLine_hdr
      ([⟨some b1.type, some b1.text, some b1.visual, some b1.duration⟩],
       ⟨some b2.type, some b2.text, some b2.visual, some b2.duration⟩, true)
      (S "HOOK " ++ (natDigits 3 ++ S ":")) (by decide) (by decide)).trans
      (by simp [hookNonempty])
  have s12 : procLine
      ([⟨some b1.type, some b1.text, some b1.visual, some b1.duration⟩,
        ⟨some b2.type, some b2.text, some b2.visual, some b2.duration⟩], emptyHook, true)
      (S "Type: " ++ b3.type) =
      ([⟨some b1.type, some b1.text, some b1.visual, some b1.duration⟩,
        ⟨some b2.type, some b2.text, some b2.visual, some b2.duration⟩],
       ⟨some b3.type, none, none, none⟩, true) :=
    procLine_type _ b3.type c3t n3t rfl
  have s13 : procLine
      ([⟨some b1.type, some b1.text, some b1.visual, some b1.duration⟩,
        ⟨some b2.type, some b2.text, some b2.visual, some b2.duration⟩],
       ⟨some b3.type, none, none, none⟩, true) (S "Text: " ++ b3.text) =
      ([⟨some b1.type, some b1.text, some b1.visual, some b1.duration⟩,
        ⟨some b2.type, some b2.text, some b2.visual, some b2.duration⟩],
       ⟨some b3.type, some b3.text, none, none⟩, true) :=
    procLine_text _ b3.text c3x n3x q3a q3b rfl
  have s14 : procLine
      ([⟨some b1.type, some b1.text, some b1.visual, some b1.duration⟩,
        ⟨some b2.type, some b2.text, some b2.visual, some b2.duration⟩],
       ⟨some b3.type, some b3.text, none, none⟩, true) (S "Visual Note: " ++ b3.visual) =
      ([⟨some b1.type, some b1.text, some b1.visual, some b1.duration⟩,
        ⟨some b2.type, some b2.text, some b2.visual, some b2.duration⟩],
       ⟨some b3.type, some b3.text, some b3.visual, none⟩, true) :=
    procLine_visual _ b3.visual c3v n3v m3v rfl
  have s15 : procLine
      ([⟨some b1.type, some b1.text, some b1.visual, some b1.duration⟩,
        ⟨some b2.type, some b2.text, some b2.visual, some b2.duration⟩],
       ⟨some b3.type, some b3.text, some b3.visual, none⟩, true) (S "Duration: " ++ b3.duration) =
      ([⟨some b1.type, some b1.text, some b1.visual, some b1.duration⟩,
        ⟨some b2.type, some b2.text, some b2.visual, some b2.duration⟩],
       ⟨some b3.type, some b3.text, some b3.visual, some b3.duration⟩, true) :=
    procLine_duration _ b3.duration c3d n3d rfl
  have hsh : structuredHooks
      [S "HOOK " ++ (natDigits 1 ++ S ":"),
       S "Type: " ++ b1.type, S "Text: " ++ b1.text, S "Visual Note: " ++ b1.visual,
       S "Duration: " ++ b1.duration,
       S "HOOK " ++ (natDigits 2 ++ S ":"),
       S "Type: " ++ b2.type, S "Text: " ++ b2.text, S "Visual Note: " ++ b2.visual,
       S "Duration: " ++ b2.duration,
       S "HOOK " ++ (natDigits 3 ++ S ":"),
       S "Type: " ++ b3.type, S "Text: " ++ b3.text, S "Visual Note: " ++ b3.visual,
       S "Duration: " ++ b3.duration] =
      [⟨some b1.type, some b1.text, some b1.visual, some b1.duration⟩,
       ⟨some b2.type, some b2.text, some b2.visual, some b2.duration⟩,
       ⟨some b3.type, some b3.text, some b3.visual, some b3.duration⟩] := by
    unfold structuredHooks
    dsimp only
    rw [List.foldl_cons, s1, List.foldl_cons, s2, List.foldl_cons, s3, List.foldl_cons, s4,
      List.foldl_cons, s5, List.foldl_cons, s6, List.foldl_cons, s7, List.foldl_cons, s8,
      List.foldl_cons, s9, List.foldl_cons, s10, List.foldl_cons, s11, List.foldl_cons, s12,
      List.foldl_cons, s13, List.foldl_cons, s14, List.foldl_cons, s15, List.foldl_nil]
    simp [hookNonempty]
  unfold parseHooks
  dsimp only
  rw [hsplit, hsh]
  simp [toHookInfo]

theorem startsW_short {p v y : List Char} (h : startsW p (v ++ y) = true)
    (hlen : v.length ≤ p.length) : startsW v p = true := by
  induction v generalizing p with
  | nil => rfl
  | cons c t ih =>
    cases p with
    | nil => simp at hlen
    | cons d q =>
      rw [List.cons_append] at h
      simp only [startsW, Bool.and_eq_true, beq_iff_eq] at h ⊢
      exact ⟨(h.1).symm, ih h.2 (by simpa using hlen)⟩

theorem mem_of_startsW {v p : List Char} (h : startsW v p = true) : ∀ c ∈ v, c ∈ p := by
  obtain ⟨t, rfl⟩ := startsW_iff.mp h
  intro c hc
  exact List.mem_append.mpr (Or.inl hc)

theorem hasSub_of_suffix_startsW {p f : List Char} (u w : List Char) (hf : f = u ++ w)
    (hw : startsW p w = true) : hasSub p f = true := by
  subst hf
  induction u with
  | nil =>
    simp only [List.nil_append]
    cases w with
    | nil => exact hw
    | cons c t =>
      rw [hasSub_cons, hw]
      rfl
  | cons a u ih =>
    rw [List.cons_append, hasSub_cons, ih]
    simp

theorem sc_append {p x1 x2 y : List Char}
    (h1 : ∀ u v, x1 = u ++ v → v ≠ [] → startsW p (v ++ (x2 ++ y)) = false)
    (h2 : ∀ u v, x2 = u ++ v → v ≠ [] → startsW p (v ++ y) = false) :
    ∀ u v, x1 ++ x2 = u ++ v → v ≠ [] → startsW p (v ++ y) = false := by
  intro u v huv hne
  rcases List.append_eq_append_iff.mp huv with ⟨w, hw1, hw2⟩ | ⟨w, hw1, hw2⟩
  · exact h2 w v hw2 hne
  · cases w with
    | nil =>
      simp only [List.nil_append] at hw2
      exact h2 [] v (by simp [hw2]) hne
    | cons a t =>
      subst hw2
      rw [List.append_assoc]
      exact h1 u (a :: t) hw1 (by simp)

theorem sc_noO (x y : List Char) (hx : noChar 'O' x = true) :
    ∀ u v, x = u ++ v → v ≠ [] → startsW (S "Option") (v ++ y) = false := by
  intro u v huv hne
  obtain ⟨c, t, rfl⟩ := List.exists_cons_of_ne_nil hne
  have hcx : c ∈ x := by
    rw [huv]
    exact List.mem_append.mpr (Or.inr (by simp))
  have hc : (c != 'O') = true := by
    unfold noChar at hx
    rw [List.all_eq_true] at hx
    exact hx c hcx
  have hc2 : ('O' == c) = false := by
    simp only [bne_iff_ne, ne_eq] at hc
    simp only [beq_eq_false_iff_ne, ne_eq]
    exact fun h => hc h.symm
  rw [List.cons_append]
  exact startsW_cons_head_false (S "ption") (t ++ y) hc2

theorem sc_field (f y : List Char) (hf : hasSub (S "Option") f = false) :
    ∀ u v, f ++ ['\n'] = u ++ v → v ≠ [] → startsW (S "Option") (v ++ y) = false := by
  intro u v huv hne
  rw [Bool.eq_false_iff]
  intro hS
  have hvl : v.getLast? = some '\n' := by
    have h1 : (u ++ v).getLast? = some '\n' := by
      rw [← huv]
      exact List.getLast?_concat f
    rw [List.getLast?_append_of_ne_nil _ hne] at h1
    exact h1
  have hlastc : v.getLast hne = '\n' := by
    rw [List.getLast?_eq_getLast v hne] at hvl
    exact Option.some_injective _ hvl
  have hv : v.dropLast ++ ['\n'] = v := by
    have h := List.dropLast_append_getLast hne
    rw [hlastc] at h
    exact h
  have hfu : f = u ++ v.dropLast := by
    have h2 : f ++ ['\n'] = (u ++ v.dropLast) ++ ['\n'] := by
      rw [List.append_assoc, hv]
      exact huv
    have h3 := congrArg List.dropLast h2
    simpa [List.dropLast_concat] using h3
  by_cases hlen : v.length ≤ 6
  · have hshort : startsW v (S "Option") = true :=
      startsW_short hS (by rw [show (S "Option").length = 6 from by decide]; exact hlen)
    have hmemv : '\n' ∈ v := by
      rw [← hlastc]
      exact List.getLast_mem hne
    have hmem : '\n' ∈ S "Option" := mem_of_startsW hshort '\n' hmemv
    exact absurd hmem (by decide)
  · push_neg at hlen
    have h1 : startsW (S "Option") v = true := by
      rw [startsW_append_of_le _ _ _
        (by rw [show (S "Option").length = 6 from by decide]; omega)] at hS
      exact hS
    have h2 : startsW (S "Option") v.dropLast = true := by
      rw [← hv] at h1
      rw [startsW_append_of_le _ _ _
        (by
          rw [show (S "Option").length = 6 from by decide, List.length_dropLast]
          omega)] at h1
      exact h1
    have h3 := hasSub_of_suffix_startsW u v.dropLast hfu h2
    rw [hf] at h3
    exact Bool.false_ne_true h3

theorem matchOptionHeaderB_eq_false {l : List Char} (h : startsW (S "Option") l = false) :
    matchOptionHeaderB l = false := by
  unfold matchOptionHeaderB
  rw [h]
  rfl

theorem splitOptionsGo_through (x : List Char) : ∀ (acc y : List Char),
    (∀ u v, x = u ++ v → v ≠ [] → matchOptionHeaderB (v ++ y) = false) →
    splitOptionsGo acc (x ++ y) = splitOptionsGo (x.reverse ++ acc) y := by
  induction x with
  | nil =>
    intro acc y _
    simp
  | cons c t ih =>
    intro acc y hx
    rw [List.cons_append, splitOptionsGo]
    have h0 := hx [] (c :: t) rfl (by simp)
    rw [List.cons_append] at h0
    rw [h0]
    simp only [Bool.false_eq_true, if_false]
    rw [ih (c :: acc) y (fun u v huv hne => hx (c :: u) v (by rw [List.cons_append, huv]) hne)]
    simp [List.reverse_cons, List.append_assoc]

theorem splitOptionsGo_piece (acc : List Char) (c : Char) (t y : List Char)
    (hhead : matchOptionHeaderB (c :: (t ++ y)) = true)
    (hx : ∀ u v, t = u ++ v → v ≠ [] → matchOptionHeaderB (v ++ y) = false) :
    splitOptionsGo acc ((c :: t) ++ y) =
      acc.reverse :: splitOptionsGo (t.reverse ++ [c]) y := by
  rw [List.cons_append, splitOptionsGo, hhead]
  simp only [if_true]
  rw [splitOptionsGo_through t [c] y hx]

theorem splitOptionsGo_no_match (x : List Char) : ∀ (acc : List Char),
    (∀ u v, x = u ++ v → v ≠ [] → matchOptionHeaderB v = false) →
    splitOptionsGo acc x = [acc.reverse ++ x] := by
  induction x with
  | nil =>
    intro acc _
    simp [splitOptionsGo]
  | cons c t ih =>
    intro acc hx
    rw [splitOptionsGo]
    have h0 := hx [] (c :: t) rfl (by simp)
    rw [h0]
    simp only [Bool.false_eq_true, if_false]
    rw [ih (c :: acc) (fun u v huv hne => hx (c :: u) v (by rw [List.cons_append, huv]) hne)]
    simp [List.reverse_cons, List.append_assoc]

theorem matchOptionHeaderB_n1 (Z : List Char) :
    matchOptionHeaderB (S "Option " ++ (natDigits 1 ++ (S ": " ++ Z))) = true := rfl

theorem matchOptionHeaderB_n2 (Z : List Char) :
    matchOptionHeaderB (S "Option " ++ (natDigits 2 ++ (S ": " ++ Z))) = true := rfl

theorem matchOptionHeaderB_n3 (Z : List Char) :
    matchOptionHeaderB (S "Option " ++ (natDigits 3 ++ (S ": " ++ Z))) = true := rfl

theorem noChar_append {c : Char} {a b : List Char} (ha : noChar c a = true)
    (hb : noChar c b = true) : noChar c (a ++ b) = true := by
  unfold noChar at ha hb ⊢
  rw [List.all_append, ha, hb]
  rfl

theorem wfOptionField_parts {f : List Char} (h : wfOptionField f = true) :
    cleanField f = true ∧ hasSub (S "Option") f = false ∧ noChar '📝' f = true ∧
      noChar '🎬' f = true ∧ noChar '⏱' f = true := by
  unfold wfOptionField at h
  simp only [Bool.and_eq_true, Bool.not_eq_true'] at h
  obtain ⟨⟨⟨⟨h1, h2⟩, h3⟩, h4⟩, h5⟩ := h
  exact ⟨h1, h2, h3, h4, h5⟩

theorem wfOptionBlock_parts {b : OptionBlock} (h : wfOptionBlock b = true) :
    wfOptionField b.type = true ∧ wfOptionField b.script = true ∧
    wfOptionField b.visual = true ∧ wfOptionField b.duration = true ∧
    (b.script.headD ' ' == quoteChar) = false ∧
    (b.script.getLastD ' ' == quoteChar) = false := by
  unfold wfOptionBlock at h
  simp only [Bool.and_eq_true, bne, Bool.not_not, Bool.not_eq_true'] at h
  obtain ⟨⟨⟨⟨⟨h1, h2⟩, h3⟩, h4⟩, h5⟩, h6⟩ := h
  exact ⟨h1, h2, h3, h4, by simpa using h5, by simpa using h6⟩

theorem sc_blockTail (n : Nat) (b : OptionBlock) (y : List Char)
    (hnd : noChar 'O' (S "ption " ++ (natDigits n ++ S ": ")) = true)
    (ht : hasSub (S "Option") b.type = false) (hs : hasSub (S "Option") b.script = false)
    (hv : hasSub (S "Option") b.visual = false)
    (hd : hasSub (S "Option") b.duration = false) :
    ∀ u v,
      S "ption " ++ (natDigits n ++ (S ": " ++ (b.type ++ ('\n' :: (S "📝 Script: " ++
        (b.script ++ ('\n' :: (S "🎬 Visual: " ++ (b.visual ++ ('\n' :: (S "⏱️ Duration: " ++
        (b.duration ++ ['\n'])))))))))))) = u ++ v →
      v ≠ [] → startsW (S "Option") (v ++ y) = false := by
  have hTeq :
      S "ption " ++ (natDigits n ++ (S ": " ++ (b.type ++ ('\n' :: (S "📝 Script: " ++
        (b.script ++ ('\n' :: (S "🎬 Visual: " ++ (b.visual ++ ('\n' :: (S "⏱️ Duration: " ++
        (b.duration ++ ['\n'])))))))))))) =
      (S "ption " ++ (natDigits n ++ S ": ")) ++ ((b.type ++ ['\n']) ++ (S "📝 Script: " ++
        ((b.script ++ ['\n']) ++ (S "🎬 Visual: " ++ ((b.visual ++ ['\n']) ++
        (S "⏱️ Duration: " ++ (b.duration ++ ['\n']))))))) := by
    simp [List.append_assoc]
  have c8 := sc_field b.duration y hd
  have c7 := sc_append (sc_noO (S "⏱️ Duration: ") _ (by decide)) c8
  have c6 := sc_append (sc_field b.visual _ hv) c7
  have c5 := sc_append (sc_noO (S "🎬 Visual: ") _ (by decide)) c6
  have c4 := sc_append (sc_field b.script _ hs) c5
  have c3 := sc_append (sc_noO (S "📝 Script: ") _ (by decide)) c4
  have c2 := sc_append (sc_field b.type _ ht) c3
  have c1 := sc_append (sc_noO (S "ption " ++ (natDigits n ++ S ": ")) _ hnd) c2
  exact fun u v huv hne => c1 u v (hTeq.symm.trans huv) hne

theorem splitOptions_render3 (b1 b2 b3 : OptionBlock)
    (h1 : wfOptionBlock b1 = true) (h2 : wfOptionBlock b2 = true)
    (h3 : wfOptionBlock b3 = true) :
    splitOptions (render3OptionBlocks b1 b2 b3) =
      [[], renderOptionBlock 1 b1, renderOptionBlock 2 b2, renderOptionBlock 3 b3] := by
  obtain ⟨w1t, w1s, w1v, w1d, _, _⟩ := wfOptionBlock_parts h1
  obtain ⟨w2t, w2s, w2v, w2d, _, _⟩ := wfOptionBlock_parts h2
  obtain ⟨w3t, w3s, w3v, w3d, _, _⟩ := wfOptionBlock_parts h3
  have e1 : renderOptionBlock 1 b1 = 'O' :: (S "ption " ++ (natDigits 1 ++ (S ": " ++ (b1.type ++ ('\n' :: (S "📝 Script: " ++ (b1.script ++ ('\n' :: (S "🎬 Visual: " ++ (b1.visual ++ ('\n' :: (S "⏱️ Duration: " ++ (b1.duration ++ ['\n']))))))))))))) := rfl
  have e2 : renderOptionBlock 2 b2 = 'O' :: (S "ption " ++ (natDigits 2 ++ (S ": " ++ (b2.type ++ ('\n' :: (S "📝 Script: " ++ (b2.script ++ ('\n' :: (S "🎬 Visual: " ++ (b2.visual ++ ('\n' :: (S "⏱️ Duration: " ++ (b2.duration ++ ['\n']))))))))))))) := rfl
  have e3 : renderOptionBlock 3 b3 = 'O' :: (S "ption " ++ (natDigits 3 ++ (S ": " ++ (b3.type ++ ('\n' :: (S "📝 Script: " ++ (b3.script ++ ('\n' :: (S "🎬 Visual: " ++ (b3.visual ++ ('\n' :: (S "⏱️ Duration: " ++ (b3.duration ++ ['\n']))))))))))))) := rfl
  have sc1 := sc_blockTail 1 b1 (('O' :: (S "ption " ++ (natDigits 2 ++ (S ": " ++ (b2.type ++ ('\n' :: (S "📝 Script: " ++ (b2.script ++ ('\n' :: (S "🎬 Visual: " ++ (b2.visual ++ ('\n' :: (S "⏱️ Duration: " ++ (b2.duration ++ ['\n'])))))))))))))) ++ ('O' :: (S "ption " ++ (natDigits 3 ++ (S ": " ++ (b3.type ++ ('\n' :: (S "📝 Script: " ++ (b3.script ++ ('\n' :: (S "🎬 Visual: " ++ (b3.visual ++ ('\n' :: (S "⏱️ Duration: " ++ (b3.duration ++ ['\n'])))))))))))))))
    (by decide) (wfOptionField_parts w1t).2.1 (wfOptionField_parts w1s).2.1
    (wfOptionField_parts w1v).2.1 (wfOptionField_parts w1d).2.1
  have sc2 := sc_blockTail 2 b2 ('O' :: (S "ption " ++ (natDigits 3 ++ (S ": " ++ (b3.type ++ ('\n' :: (S "📝 Script: " ++ (b3.script ++ ('\n' :: (S "🎬 Visual: " ++ (b3.visual ++ ('\n' :: (S "⏱️ Duration: " ++ (b3.duration ++ ['\n']))))))))))))))
    (by decide) (wfOptionField_parts w2t).2.1 (wfOptionField_parts w2s).2.1
    (wfOptionField_parts w2v).2.1 (wfOptionField_parts w2d).2.1
  have sc3 := sc_blockTail 3 b3 []
    (by decide) (wfOptionField_parts w3t).2.1 (wfOptionField_parts w3s).2.1
    (wfOptionField_parts w3v).2.1 (wfOptionField_parts w3d).2.1
  have cond1 : matchOptionHeaderB ('O' :: ((S "ption " ++ (natDigits 1 ++ (S ": " ++ (b1.type ++ ('\n' :: (S "📝 Script: " ++ (b1.script ++ ('\n' :: (S "🎬 Visual: " ++ (b1.visual ++ ('\n' :: (S "⏱️ Duration: " ++ (b1.duration ++ ['\n']))))))))))))) ++ (('O' :: (S "ption " ++ (natDigits 2 ++ (S ": " ++ (b2.type ++ ('\n' :: (S "📝 Script: " ++ (b2.script ++ ('\n' :: (S "🎬 Visual: " ++ (b2.visual ++ ('\n' :: (S "⏱️ Duration: " ++ (b2.duration ++ ['\n'])))))))))))))) ++ ('O' :: (S "ption " ++ (natDigits 3 ++ (S ": " ++ (b3.type ++ ('\n' :: (S "📝 Script: " ++ (b3.script ++ ('\n' :: (S "🎬 Visual: " ++ (b3.visual ++ ('\n' :: (S "⏱️ Duration: " ++ (b3.duration ++ ['\n']))))))))))))))))) = true :=
    matchOptionHeaderB_n1 ((b1.type ++ ('\n' :: (S "📝 Script: " ++ (b1.script ++ ('\n' :: (S "🎬 Visual: " ++ (b1.visual ++ ('\n' :: (S "⏱️ Duration: " ++ (b1.duration ++ ['\n'])))))))))) ++ (('O' :: (S "ption " ++ (natDigits 2 ++ (S ": " ++ (b2.type ++ ('\n' :: (S "📝 Script: " ++ (b2.script ++ ('\n' :: (S "🎬 Visual: " ++ (b2.visual ++ ('\n' :: (S "⏱️ Duration: " ++ (b2.duration ++ ['\n'])))))))))))))) ++ ('O' :: (S "ption " ++ (natDigits 3 ++ (S ": " ++ (b3.type ++ ('\n' :: (S "📝 Script: " ++ (b3.script ++ ('\n' :: (S "🎬 Visual: " ++ (b3.visual ++ ('\n' :: (S "⏱️ Duration: " ++ (b3.duration ++ ['\n']))))))))))))))))
  have cond2 : matchOptionHeaderB ('O' :: ((S "ption " ++ (natDigits 2 ++ (S ": " ++ (b2.type ++ ('\n' :: (S "📝 Script: " ++ (b2.script ++ ('\n' :: (S "🎬 Visual: " ++ (b2.visual ++ ('\n' :: (S "⏱️ Duration: " ++ (b2.duration ++ ['\n']))))))))))))) ++ ('O' :: (S "ption " ++ (natDigits 3 ++ (S ": " ++ (b3.type ++ ('\n' :: (S "📝 Script: " ++ (b3.script ++ ('\n' :: (S "🎬 Visual: " ++ (b3.visual ++ ('\n' :: (S "⏱️ Duration: " ++ (b3.duration ++ ['\n'])))))))))))))))) = true :=
    matchOptionHeaderB_n2 ((b2.type ++ ('\n' :: (S "📝 Script: " ++ (b2.script ++ ('\n' :: (S "🎬 Visual: " ++ (b2.visual ++ ('\n' :: (S "⏱️ Duration: " ++ (b2.duration ++ ['\n'])))))))))) ++ ('O' :: (S "ption " ++ (natDigits 3 ++ (S ": " ++ (b3.type ++ ('\n' :: (S "📝 Script: " ++ (b3.script ++ ('\n' :: (S "🎬 Visual: " ++ (b3.visual ++ ('\n' :: (S "⏱️ Duration: " ++ (b3.duration ++ ['\n'])))))))))))))))
  have cond3 : matchOptionHeaderB ('O' :: (S "ption " ++ (natDigits 3 ++ (S ": " ++ (b3.type ++ ('\n' :: (S "📝 Script: " ++ (b3.script ++ ('\n' :: (S "🎬 Visual: " ++ (b3.visual ++ ('\n' :: (S "⏱️ Duration: " ++ (b3.duration ++ ['\n'])))))))))))))) = true :=
    matchOptionHeaderB_n3 (b3.type ++ ('\n' :: (S "📝 Script: " ++ (b3.script ++ ('\n' :: (S "🎬 Visual: " ++ (b3.visual ++ ('\n' :: (S "⏱️ Duration: " ++ (b3.duration ++ ['\n']))))))))))
  have hsc1 : ∀ u v, (S "ption " ++ (natDigits 1 ++ (S ": " ++ (b1.type ++ ('\n' :: (S "📝 Script: " ++ (b1.script ++ ('\n' :: (S "🎬 Visual: " ++ (b1.visual ++ ('\n' :: (S "⏱️ Duration: " ++ (b1.duration ++ ['\n']))))))))))))) = u ++ v → v ≠ [] →
      matchOptionHeaderB (v ++ (('O' :: (S "ption " ++ (natDigits 2 ++ (S ": " ++ (b2.type ++ ('\n' :: (S "📝 Script: " ++ (b2.script ++ ('\n' :: (S "🎬 Visual: " ++ (b2.visual ++ ('\n' :: (S "⏱️ Duration: " ++ (b2.duration ++ ['\n'])))))))))))))) ++ ('O' :: (S "ption " ++ (natDigits 3 ++ (S ": " ++ (b3.type ++ ('\n' :: (S "📝 Script: " ++ (b3.script ++ ('\n' :: (S "🎬 Visual: " ++ (b3.visual ++ ('\n' :: (S "⏱️ Duration: " ++ (b3.duration ++ ['\n'])))))))))))))))) = false :=
    fun u v huv hne => matchOptionHeaderB_eq_false (sc1 u v huv hne)
  have hsc2 : ∀ u v, (S "ption " ++ (natDigits 2 ++ (S ": " ++ (b2.type ++ ('\n' :: (S "📝 Script: " ++ (b2.script ++ ('\n' :: (S "🎬 Visual: " ++ (b2.visual ++ ('\n' :: (S "⏱️ Duration: " ++ (b2.duration ++ ['\n']))))))))))))) = u ++ v → v ≠ [] →
      matchOptionHeaderB (v ++ ('O' :: (S "ption " ++ (natDigits 3 ++ (S ": " ++ (b3.type ++ ('\n' :: (S "📝 Script: " ++ (b3.script ++ ('\n' :: (S "🎬 Visual: " ++ (b3.visual ++ ('\n' :: (S "⏱️ Duration: " ++ (b3.duration ++ ['\n']))))))))))))))) = false :=
    fun u v huv hne => matchOptionHeaderB_eq_false (sc2 u v huv hne)
  have hsc3 : ∀ u v, (S "ption " ++ (natDigits 3 ++ (S ": " ++ (b3.type ++ ('\n' :: (S "📝 Script: " ++ (b3.script ++ ('\n' :: (S "🎬 Visual: " ++ (b3.visual ++ ('\n' :: (S "⏱️ Duration: " ++ (b3.duration ++ ['\n']))))))))))))) = u ++ v → v ≠ [] →
      matchOptionHeaderB v = false :=
    fun u v huv hne => matchOptionHeaderB_eq_false (by
      have hx := sc3 u v huv hne
      rwa [List.append_nil] at hx)
  have st1 := splitOptionsGo_piece [] 'O' (S "ption " ++ (natDigits 1 ++ (S ": " ++ (b1.type ++ ('\n' :: (S "📝 Script: " ++ (b1.script ++ ('\n' :: (S "🎬 Visual: " ++ (b1.visual ++ ('\n' :: (S "⏱️ Duration: " ++ (b1.duration ++ ['\n']))))))))))))) (('O' :: (S "ption " ++ (natDigits 2 ++ (S ": " ++ (b2.type ++ ('\n' :: (S "📝 Script: " ++ (b2.script ++ ('\n' :: (S "🎬 Visual: " ++ (b2.visual ++ ('\n' :: (S "⏱️ Duration: " ++ (b2.duration ++ ['\n'])))))))))))))) ++ ('O' :: (S "ption " ++ (natDigits 3 ++ (S ": " ++ (b3.type ++ ('\n' :: (S "📝 Script: " ++ (b3.script ++ ('\n' :: (S "🎬 Visual: " ++ (b3.visual ++ ('\n' :: (S "⏱️ Duration: " ++ (b3.duration ++ ['\n']))))))))))))))) cond1 hsc1
  have st2 := splitOptionsGo_piece (((S "ption " ++ (natDigits 1 ++ (S ": " ++ (b1.type ++ ('\n' :: (S "📝 Script: " ++ (b1.script ++ ('\n' :: (S "🎬 Visual: " ++ (b1.visual ++ ('\n' :: (S "⏱️ Duration: " ++ (b1.duration ++ ['\n'])))))))))))))).reverse ++ ['O']) 'O' (S "ption " ++ (natDigits 2 ++ (S ": " ++ (b2.type ++ ('\n' :: (S "📝 Script: " ++ (b2.script ++ ('\n' :: (S "🎬 Visual: " ++ (b2.visual ++ ('\n' :: (S "⏱️ Duration: " ++ (b2.duration ++ ['\n']))))))))))))) ('O' :: (S "ption " ++ (natDigits 3 ++ (S ": " ++ (b3.type ++ ('\n' :: (S "📝 Script: " ++ (b3.script ++ ('\n' :: (S "🎬 Visual: " ++ (b3.visual ++ ('\n' :: (S "⏱️ Duration: " ++ (b3.duration ++ ['\n'])))))))))))))) cond2 hsc2
  have st4 := splitOptionsGo_no_match (S "ption " ++ (natDigits 3 ++ (S ": " ++ (b3.type ++ ('\n' :: (S "📝 Script: " ++ (b3.script ++ ('\n' :: (S "🎬 Visual: " ++ (b3.visual ++ ('\n' :: (S "⏱️ Duration: " ++ (b3.duration ++ ['\n']))))))))))))) ['O'] hsc3
  unfold splitOptions render3OptionBlocks
  rw [e1]
  rw [e2]
  rw [e3]
  rw [List.append_assoc]
  rw [st1]
  rw [st2]
  rw [splitOptionsGo]
  rw [cond3]
  simp only [if_true]
  rw [st4]
  simp

theorem wsRun_space_cons {f : List Char} (M : List Char) (hf : cleanField f = true) :
    wsRun (' ' :: (f ++ M)) = 1 := by
  obtain ⟨hne, _, hhead, _⟩ := cleanField_parts hf
  obtain ⟨d, u, rfl⟩ := List.exists_cons_of_ne_nil hne
  have hd : isSpaceB d = false := by simpa [List.headD] using hhead
  unfold wsRun
  rw [List.cons_append, List.takeWhile_cons]
  rw [show isSpaceB ' ' = true from rfl]
  simp only [if_true]
  rw [List.takeWhile_cons, hd]
  simp

theorem nonNlRun_append {f : List Char} (M : List Char) (hf : ∀ c ∈ f, c ≠ '\n') :
    nonNlRun (f ++ '\n' :: M) = f := by
  induction f with
  | nil => rfl
  | cons c t ih =>
    unfold nonNlRun
    rw [List.cons_append, List.takeWhile_cons]
    have hc : (c != '\n') = true := by simpa using hf c (by simp)
    rw [hc]
    simp only [if_true]
    have ih2 := ih (fun d hd => hf d (by simp [hd]))
    unfold nonNlRun at ih2
    rw [ih2]

theorem capLine_clean {f : List Char} (M : List Char) (hf : cleanField f = true) :
    capLine (' ' :: (f ++ '\n' :: M)) = some (f, '\n' :: M) := by
  obtain ⟨hne, hnl, hhead, _⟩ := cleanField_parts hf
  have hws : wsRun (' ' :: (f ++ '\n' :: M)) = 1 := wsRun_space_cons ('\n' :: M) hf
  have hcf : capLineFrom (' ' :: (f ++ '\n' :: M)) 1 = some (f, '\n' :: M) := by
    obtain ⟨d, u, rfl⟩ := List.exists_cons_of_ne_nil hne
    have hdn : (d == '\n') = false := hnl d (by simp)
    unfold capLineFrom
    rw [show ((' ' :: ((d :: u) ++ '\n' :: M)).drop 1) = d :: (u ++ '\n' :: M) from rfl]
    dsimp only
    rw [hdn]
    simp only [Bool.false_eq_true, if_false]
    rw [show d :: (u ++ '\n' :: M) = (d :: u) ++ '\n' :: M from rfl]
    rw [nonNlRun_append M (fun c hc => by simpa using hnl c hc)]
    rw [List.drop_left]
  unfold capLine
  rw [hws]
  unfold capLineLoop
  rw [hcf]

theorem beq_symm_false {a b : Char} (h : (a == b) = false) : (b == a) = false := by
  simp only [beq_eq_false_iff_ne, ne_eq] at h ⊢
  exact fun he => h he.symm

theorem scriptTailCond_cons_false {c : Char} (X : List Char) (hc : (c == '\n') = false) :
    scriptTailCond (c :: X) = false := by
  have hc2 : ('\n' == c) = false := beq_symm_false hc
  have h1 : startsW (S "\n🎬") (c :: X) = false :=
    startsW_cons_head_false (S "🎬") X hc2
  have h2 : startsW ('\n' :: S "⏱️") (c :: X) = false :=
    startsW_cons_head_false (S "⏱️") X hc2
  have h4 : ((c :: X) == ['\n']) = false := by
    rw [show ((c :: X) == ['\n']) = (c == '\n' && X == ([] : List Char)) from rfl, hc]
    rfl
  unfold scriptTailCond
  rw [h1, h2, h4]
  rfl

theorem lazyCap_clean {f : List Char} (R : List Char) (hf : ∀ c ∈ f, c ≠ '\n')
    (hR : scriptTailCond ('\n' :: R) = true) :
    lazyCap (f ++ '\n' :: R) = some f := by
  induction f with
  | nil =>
    rw [List.nil_append]
    unfold lazyCap
    rw [hR]
    simp
  | cons c t ih =>
    rw [List.cons_append]
    unfold lazyCap
    have hc : (c == '\n') = false := by simpa using hf c (by simp)
    rw [scriptTailCond_cons_false _ hc]
    simp only [Bool.false_eq_true, if_false]
    rw [hc]
    simp only [Bool.false_eq_true, if_false]
    rw [ih (fun d hd => hf d (by simp [hd]))]
    rfl

theorem noChar_head {c0 c : Char} {t : List Char} (h : noChar c0 (c :: t) = true) :
    (c0 == c) = false ∧ noChar c0 t = true := by
  unfold noChar at h ⊢
  rw [List.all_cons] at h
  simp only [Bool.and_eq_true] at h
  refine ⟨?_, h.2⟩
  have h1 := h.1
  simp only [bne_iff_ne, ne_eq] at h1
  simp only [beq_eq_false_iff_ne, ne_eq]
  exact fun he => h1 he.symm

theorem scriptAt_none {l : List Char} (h : startsW (S "📝") l = false) :
    scriptAt l = none := by
  unfold scriptAt
  rw [h]
  rfl

theorem visualAt_none {l : List Char} (h : startsW (S "🎬") l = false) :
    visualAt l = none := by
  unfold visualAt
  rw [h]
  rfl

theorem durationAt_none {l : List Char} (h : startsW (S "⏱️") l = false) :
    durationAt l = none := by
  unfold durationAt
  rw [h]
  rfl

theorem scriptSearch_skip {x : List Char} (y : List Char) (hx : noChar '📝' x = true) :
    scriptSearch (x ++ y) = scriptSearch y := by
  induction x with
  | nil => rfl
  | cons c t ih =>
    obtain ⟨hc, ht⟩ := noChar_head hx
    rw [List.cons_append]
    rw [scriptSearch]
    have hsw : startsW (S "📝") (c :: (t ++ y)) = false :=
      startsW_cons_head_false [] (t ++ y) hc
    rw [scriptAt_none hsw]
    exact ih ht

theorem visualSearch_skip {x : List Char} (y : List Char) (hx : noChar '🎬' x = true) :
    visualSearch (x ++ y) = visualSearch y := by
  induction x with
  | nil => rfl
  | cons c t ih =>
    obtain ⟨hc, ht⟩ := noChar_head hx
    rw [List.cons_append]
    rw [visualSearch]
    have hsw : startsW (S "🎬") (c :: (t ++ y)) = false :=
      startsW_cons_head_false [] (t ++ y) hc
    rw [visualAt_none hsw]
    exact ih ht

theorem durationSearch_skip {x : List Char} (y : List Char) (hx : noChar '⏱' x = true) :
    durationSearch (x ++ y) = durationSearch y := by
  induction x with
  | nil => rfl
  | cons c t ih =>
    obtain ⟨hc, ht⟩ := noChar_head hx
    rw [List.cons_append]
    rw [durationSearch]
    have hsw : startsW (S "⏱️") (c :: (t ++ y)) = false :=
      startsW_cons_head_false (S "️") (t ++ y) hc
    rw [durationAt_none hsw]
    exact ih ht

theorem scriptSearch_hit {c : Char} {rest g : List Char} (h : scriptAt (c :: rest) = some g) :
    scriptSearch (c :: rest) = some g := by
  unfold scriptSearch
  rw [h]

theorem visualSearch_hit {c : Char} {rest g : List Char} (h : visualAt (c :: rest) = some g) :
    visualSearch (c :: rest) = some g := by
  unfold visualSearch
  rw [h]

theorem durationSearch_hit {c : Char} {rest g : List Char}
    (h : durationAt (c :: rest) = some g) : durationSearch (c :: rest) = some g := by
  unfold durationSearch
  rw [h]

theorem scriptAt_hit (f R : List Char) (hf : cleanField f = true)
    (hR : scriptTailCond ('\n' :: R) = true) :
    scriptAt (S "📝 Script: " ++ (f ++ '\n' :: R)) = some f := by
  obtain ⟨hne, hnl, _, _⟩ := cleanField_parts hf
  have e : scriptAt (S "📝 Script: " ++ (f ++ '\n' :: R)) =
      scriptCapLoop (' ' :: (f ++ '\n' :: R)) (wsRun (' ' :: (f ++ '\n' :: R))) := rfl
  rw [e, wsRun_space_cons ('\n' :: R) hf]
  have hlz : lazyCap ((' ' :: (f ++ '\n' :: R)).drop 1) = some f := by
    rw [show ((' ' :: (f ++ '\n' :: R)).drop 1) = f ++ '\n' :: R from rfl]
    exact lazyCap_clean R (fun c hc => by simpa using hnl c hc) hR
  unfold scriptCapLoop
  rw [hlz]

theorem visualAt_hit (f R : List Char) (hf : cleanField f = true)
    (hR : startsW (S "⏱️") R = true) :
    visualAt (S "🎬 Visual: " ++ (f ++ '\n' :: R)) = some f := by
  have e : visualAt (S "🎬 Visual: " ++ (f ++ '\n' :: R)) =
      (capLine (' ' :: (f ++ '\n' :: R))).map (fun g => g.1 ++ visContGo g.2.length g.2) := rfl
  rw [e, capLine_clean R hf]
  show some (f ++ visContGo ('\n' :: R).length ('\n' :: R)) = some f
  have hv : visContGo ('\n' :: R).length ('\n' :: R) = [] := by
    rw [show ('\n' :: R).length = R.length + 1 from rfl]
    simp only [visContGo]
    rw [hR]
    simp
  rw [hv, List.append_nil]

theorem durationAt_hit (f : List Char) (hf : cleanField f = true) :
    durationAt (S "⏱️ Duration: " ++ (f ++ ['\n'])) = some f := by
  have e : durationAt (S "⏱️ Duration: " ++ (f ++ ['\n'])) =
      (capLine (' ' :: (f ++ '\n' :: []))).map (fun g => g.1) := rfl
  rw [e, capLine_clean [] hf]
  rfl

theorem headerMatch_n1 (f M : List Char) (hf : cleanField f = true) :
    headerMatch (S "Option " ++ (natDigits 1 ++ (S ": " ++ (f ++ '\n' :: M)))) =
      some (1, f) := by
  have e : headerMatch (S "Option " ++ (natDigits 1 ++ (S ": " ++ (f ++ '\n' :: M)))) =
      (capLine (' ' :: (f ++ '\n' :: M))).map (fun g => (digitsVal ['1'], g.1)) := rfl
  rw [e, capLine_clean M hf]
  rfl

theorem headerMatch_n2 (f M : List Char) (hf : cleanField f = true) :
    headerMatch (S "Option " ++ (natDigits 2 ++ (S ": " ++ (f ++ '\n' :: M)))) =
      some (2, f) := by
  have e : headerMatch (S "Option " ++ (natDigits 2 ++ (S ": " ++ (f ++ '\n' :: M)))) =
      (capLine (' ' :: (f ++ '\n' :: M))).map (fun g => (digitsVal ['2'], g.1)) := rfl
  rw [e, capLine_clean M hf]
  rfl

theorem headerMatch_n3 (f M : List Char) (hf : cleanField f = true) :
    headerMatch (S "Option " ++ (natDigits 3 ++ (S ": " ++ (f ++ '\n' :: M)))) =
      some (3, f) := by
  have e : headerMatch (S "Option " ++ (natDigits 3 ++ (S ": " ++ (f ++ '\n' :: M)))) =
      (capLine (' ' :: (f ++ '\n' :: M))).map (fun g => (digitsVal ['3'], g.1)) := rfl
  rw [e, capLine_clean M hf]
  rfl

theorem scriptSearch_at (f R : List Char) (hf : cleanField f = true)
    (hR : scriptTailCond ('\n' :: R) = true) :
    scriptSearch (S "📝 Script: " ++ (f ++ '\n' :: R)) = some f := by
  have h : scriptAt ('📝' :: (S " Script: " ++ (f ++ '\n' :: R))) = some f :=
    scriptAt_hit f R hf hR
  exact scriptSearch_hit h

theorem visualSearch_at (f R : List Char) (hf : cleanField f = true)
    (hR : startsW (S "⏱️") R = true) :
    visualSearch (S "🎬 Visual: " ++ (f ++ '\n' :: R)) = some f := by
  have h : visualAt ('🎬' :: (S " Visual: " ++ (f ++ '\n' :: R))) = some f :=
    visualAt_hit f R hf hR
  exact visualSearch_hit h

theorem durationSearch_at (f : List Char) (hf : cleanField f = true) :
    durationSearch (S "⏱️ Duration: " ++ (f ++ ['\n'])) = some f := by
  have h : durationAt ('⏱' :: (S "️ Duration: " ++ (f ++ ['\n']))) = some f :=
    durationAt_hit f hf
  exact durationSearch_hit h

theorem noChar_cons {c0 d : Char} {t : List Char} (hd : (d == c0) = false)
    (ht : noChar c0 t = true) : noChar c0 (d :: t) = true := by
  unfold noChar at ht ⊢
  rw [List.all_cons, ht]
  rw [show (d != c0) = true from by simp [bne, hd]]
  rfl

theorem extractFromOption_block (n : Nat) (b : OptionBlock) (hwf : wfOptionBlock b = true)
    (hd1 : noChar '📝' (natDigits n) = true) (hd2 : noChar '🎬' (natDigits n) = true)
    (hd3 : noChar '⏱' (natDigits n) = true)
    (hm : headerMatch (renderOptionBlock n b) = some (n, b.type)) :
    extractFromOption (renderOptionBlock n b) = some (toHookMeta n b) := by
  obtain ⟨wt, ws, wv, wd, hq1, hq2⟩ := wfOptionBlock_parts hwf
  obtain ⟨ct, _, pt, gt, tt⟩ := wfOptionField_parts wt
  obtain ⟨cs, _, ps, gs, ts⟩ := wfOptionField_parts ws
  obtain ⟨cv, _, pv, gv, tv⟩ := wfOptionField_parts wv
  obtain ⟨cd, _, pd, gd, td⟩ := wfOptionField_parts wd
  have hA : renderOptionBlock n b = (S "Option " ++ (natDigits n ++ (S ": " ++ (b.type ++ ['\n'])))) ++ (S "📝 Script: " ++ (b.script ++ '\n' :: (S "🎬 Visual: " ++ (b.visual ++ ('\n' :: (S "⏱️ Duration: " ++ (b.duration ++ ['\n']))))))) := by
    simp [renderOptionBlock, List.append_assoc]
  have hB : renderOptionBlock n b = (S "Option " ++ (natDigits n ++ (S ": " ++ (b.type ++ ('\n' :: (S "📝 Script: " ++ (b.script ++ ['\n']))))))) ++ (S "🎬 Visual: " ++ (b.visual ++ '\n' :: (S "⏱️ Duration: " ++ (b.duration ++ ['\n'])))) := by
    simp [renderOptionBlock, List.append_assoc]
  have hC : renderOptionBlock n b = (S "Option " ++ (natDigits n ++ (S ": " ++ (b.type ++ ('\n' :: (S "📝 Script: " ++ (b.script ++ ('\n' :: (S "🎬 Visual: " ++ (b.visual ++ ['\n'])))))))))) ++ (S "⏱️ Duration: " ++ (b.duration ++ ['\n'])) := by
    simp [renderOptionBlock, List.append_assoc]
  have hnoA : noChar '📝' (S "Option " ++ (natDigits n ++ (S ": " ++ (b.type ++ ['\n'])))) = true :=
    noChar_append (by decide) (noChar_append hd1 (noChar_append (by decide)
      (noChar_append pt (by decide))))
  have hnoB : noChar '🎬' (S "Option " ++ (natDigits n ++ (S ": " ++ (b.type ++ ('\n' :: (S "📝 Script: " ++ (b.script ++ ['\n']))))))) = true :=
    noChar_append (by decide) (noChar_append hd2 (noChar_append (by decide)
      (noChar_append gt (noChar_cons (by decide) (noChar_append (by decide)
      (noChar_append gs (by decide)))))))
  have hnoC : noChar '⏱' (S "Option " ++ (natDigits n ++ (S ": " ++ (b.type ++ ('\n' :: (S "📝 Script: " ++ (b.script ++ ('\n' :: (S "🎬 Visual: " ++ (b.visual ++ ['\n'])))))))))) = true :=
    noChar_append (by decide) (noChar_append hd3 (noChar_append (by decide)
      (noChar_append tt (noChar_cons (by decide) (noChar_append (by decide)
      (noChar_append ts (noChar_cons (by decide) (noChar_append (by decide)
      (noChar_append tv (by decide))))))))))
  have hS : scriptSearch (renderOptionBlock n b) = some b.script := by
    rw [hA, scriptSearch_skip _ hnoA]
    exact scriptSearch_at b.script (S "🎬 Visual: " ++ (b.visual ++ ('\n' :: (S "⏱️ Duration: " ++ (b.duration ++ ['\n']))))) cs rfl
  have hV : visualSearch (renderOptionBlock n b) = some b.visual := by
    rw [hB, visualSearch_skip _ hnoB]
    exact visualSearch_at b.visual (S "⏱️ Duration: " ++ (b.duration ++ ['\n'])) cv rfl
  have hD : durationSearch (renderOptionBlock n b) = some b.duration := by
    rw [hC, durationSearch_skip _ hnoC]
    exact durationSearch_at b.duration cd
  have hne : pyStrip (renderOptionBlock n b) ≠ [] := pyStrip_cons_ne_nil _ (by decide)
  have hstrip : (pyStrip (renderOptionBlock n b)).isEmpty = false := by
    rcases hp : pyStrip (renderOptionBlock n b) with _ | ⟨a, t⟩
    · exact absurd hp hne
    · rfl
  have hopt : startsW (S "Option") (renderOptionBlock n b) = true := rfl
  unfold extractFromOption
  rw [hstrip, hopt]
  simp only [Bool.not_true, Bool.or_false, Bool.false_eq_true, if_false]
  have hsne : (b.script).isEmpty = false := by
    rcases hp : b.script with _ | ⟨a, t⟩
    · exact absurd hp (cleanField_parts cs).1
    · rfl
  have hsg : startsW (S "🎬") b.script = false := by
    obtain ⟨d, u, he⟩ := List.exists_cons_of_ne_nil (cleanField_parts cs).1
    rw [he]
    refine startsW_cons_head_false [] u ?_
    exact (noChar_head (he ▸ gs)).1
  rw [hm, hS, hV, hD]
  dsimp only
  rw [pyStrip_eq_self_of_clean cs, stripQuotes_eq_self (cleanField_parts cs).1 hq1 hq2]
  rw [hsne, hsg]
  simp [toHookMeta, pyStrip_eq_self_of_clean ct, pyStrip_eq_self_of_clean cv,
    pyStrip_eq_self_of_clean cd]
  exact (cleanField_parts cs).1

theorem extractHookMetadata_render3 (b1 b2 b3 : OptionBlock)
    (h1 : wfOptionBlock b1 = true) (h2 : wfOptionBlock b2 = true)
    (h3 : wfOptionBlock b3 = true) :
    extractHookMetadata (render3OptionBlocks b1 b2 b3) =
      [toHookMeta 1 b1, toHookMeta 2 b2, toHookMeta 3 b3] := by
  have hm1 : headerMatch (renderOptionBlock 1 b1) = some (1, b1.type) :=
    headerMatch_n1 b1.type (S "📝 Script: " ++ (b1.script ++ ('\n' :: (S "🎬 Visual: " ++ (b1.visual ++ ('\n' :: (S "⏱️ Duration: " ++ (b1.duration ++ ['\n']))))))))
      (wfOptionField_parts (wfOptionBlock_parts h1).1).1
  have hm2 : headerMatch (renderOptionBlock 2 b2) = some (2, b2.type) :=
    headerMatch_n2 b2.type (S "📝 Script: " ++ (b2.script ++ ('\n' :: (S "🎬 Visual: " ++ (b2.visual ++ ('\n' :: (S "⏱️ Duration: " ++ (b2.duration ++ ['\n']))))))))
      (wfOptionField_parts (wfOptionBlock_parts h2).1).1
  have hm3 : headerMatch (renderOptionBlock 3 b3) = some (3, b3.type) :=
    headerMatch_n3 b3.type (S "📝 Script: " ++ (b3.script ++ ('\n' :: (S "🎬 Visual: " ++ (b3.visual ++ ('\n' :: (S "⏱️ Duration: " ++ (b3.duration ++ ['\n']))))))))
      (wfOptionField_parts (wfOptionBlock_parts h3).1).1
  have e0 : extractFromOption ([] : List Char) = none := rfl
  have e1 : extractFromOption (renderOptionBlock 1 b1) = some (toHookMeta 1 b1) :=
    extractFromOption_block 1 b1 h1 (by decide) (by decide) (by decide) hm1
  have e2 : extractFromOption (renderOptionBlock 2 b2) = some (toHookMeta 2 b2) :=
    extractFromOption_block 2 b2 h2 (by decide) (by decide) (by decide) hm2
  have e3 : extractFromOption (renderOptionBlock 3 b3) = some (toHookMeta 3 b3) :=
    extractFromOption_block 3 b3 h3 (by decide) (by decide) (by decide) hm3
  unfold extractHookMetadata
  rw [splitOptions_render3 b1 b2 b3 h1 h2 h3]
  simp only [List.filterMap_cons, List.filterMap_nil, e0, e1, e2, e3]

/-- C3: a completion text consisting of three well-formed blocks parses back to
exactly the three blocks, in input order, with each parsed dictionary holding the
labeled fields of its block: `HOOK N:` completion blocks through
`HookSpecialistAgent._parse_hooks`, and `Option N:` display blocks through
`extract_hook_metadata`. -/
theorem C3_three_block_round_trip
    (hb1 hb2 hb3 : HookBlock) (ob1 ob2 ob3 : OptionBlock)
    (w1 : wfHookBlock hb1 = true) (w2 : wfHookBlock hb2 = true)
    (w3 : wfHookBlock hb3 = true)
    (v1 : wfOptionBlock ob1 = true) (v2 : wfOptionBlock ob2 = true)
    (v3 : wfOptionBlock ob3 = true) :
    parseHooks (render3HookBlocks hb1 hb2 hb3) =
      [toHookInfo hb1, toHookInfo hb2, toHookInfo hb3] ∧
    extractHookMetadata (render3OptionBlocks ob1 ob2 ob3) =
      [toHookMeta 1 ob1, toHookMeta 2 ob2, toHookMeta 3 ob3] :=
  ⟨parseHooks_render3 hb1 hb2 hb3 w1 w2 w3,
   extractHookMetadata_render3 ob1 ob2 ob3 v1 v2 v3⟩

/-- Witness: the round trip at three concrete hook blocks and option blocks. -/
theorem C3_three_block_round_trip_witness :
    parseHooks (render3HookBlocks
        ⟨S "Curiosity Gap", S "What if you could do this?", S "Fast cuts", S "5 seconds"⟩
        ⟨S "Problem", S "Tired of busywork?", S "Montage", S "6 seconds"⟩
        ⟨S "Shock", S "90% of teams fail.", S "Graph", S "7 seconds"⟩) =
      [toHookInfo ⟨S "Curiosity Gap", S "What if you could do this?", S "Fast cuts",
        S "5 seconds"⟩,
       toHookInfo ⟨S "Problem", S "Tired of busywork?", S "Montage", S "6 seconds"⟩,
       toHookInfo ⟨S "Shock", S "90% of teams fail.", S "Graph", S "7 seconds"⟩] ∧
    extractHookMetadata (render3OptionBlocks
        ⟨S "Curiosity Gap", S "What if you could do this?", S "Fast cuts", S "5 seconds"⟩
        ⟨S "Problem", S "Tired of busywork?", S "Montage", S "6 seconds"⟩
        ⟨S "Shock", S "90% of teams fail.", S "Graph", S "7 seconds"⟩) =
      [toHookMeta 1 ⟨S "Curiosity Gap", S "What if you could do this?", S "Fast cuts",
        S "5 seconds"⟩,
       toHookMeta 2 ⟨S "Problem", S "Tired of busywork?", S "Montage", S "6 seconds"⟩,
       toHookMeta 3 ⟨S "Shock", S "90% of teams fail.", S "Graph", S "7 seconds"⟩] :=
  C3_three_block_round_trip _ _ _ _ _ _ (by decide) (by decide) (by decide)
    (by decide) (by decide) (by decide)
